import Mathlib

/-!
# SillyForce and SillySimulationModifier (Chaste user project IntroToChasteCpp)

A shallow embedding of `src/SillyForce.cpp` and `src/SillySimulationModifier.cpp`.

Conventions of the embedding:

* `double` is idealised as exact rational arithmetic (`ℚ`): every statement below is about
  the arithmetic the code writes down, without rounding, overflow, infinities or NaN.
* The template parameter `DIM` is an explicit natural number argument; the code instantiates
  it at 1, 2 and 3.
* The cell population, its mesh and its nodes are owned by the simulation engine. They are
  represented by the state they expose to the two components: the list of nodes (position and
  accumulated force), the mesh displacement operator, the centroid aggregate and the outcome
  of the `dynamic_cast` to a vertex-based population.
* The simulation clock singleton `SimulationTime::Instance()->GetTime()` is an explicit
  argument `time_now`.
* A member function that mutates its arguments returns the new state.
-/

namespace Chaste

/-! ## Vectors -/

/-- A `c_vector<double, DIM>`: `DIM` coordinates. -/
abbrev c_vector (DIM : Nat) : Type := Fin DIM → ℚ

/-- The vector `zero_vector<double>(DIM)`. -/
def zero_vector (DIM : Nat) : c_vector DIM := fun _ => 0

/-- Read access `v[i]`. The code only indexes inside the `DIM == 2` branches, with `i < 2`;
an index outside the vector reads as `0` to keep the function total. -/
def vget {DIM : Nat} (v : c_vector DIM) (i : Nat) : ℚ :=
  if h : i < DIM then v ⟨i, h⟩ else 0

/-- Write access `v[i] = x`: the vector that has `x` at coordinate `i` and agrees with `v`
elsewhere. -/
def vset {DIM : Nat} (v : c_vector DIM) (i : Nat) (x : ℚ) : c_vector DIM :=
  fun j => if j.val = i then x else v j

/-- The product `v * s` of a vector with a scalar, coordinate by coordinate. -/
def vscale {DIM : Nat} (v : c_vector DIM) (s : ℚ) : c_vector DIM := fun j => v j * s

/-- The sum `u + v`, coordinate by coordinate. -/
def vadd {DIM : Nat} (u v : c_vector DIM) : c_vector DIM := fun j => u j + v j

/-! ## Nodes, mesh and population (engine side) -/

/-- Modelled from the spec: the engine's `Node<DIM>` (not part of this repository's sources),
reduced to what the two components touch: a stable index, the current position and the
accumulated applied force. -/
structure Node (DIM : Nat) where
  mIndex : Nat
  mLocation : c_vector DIM
  mAppliedForce : c_vector DIM

/-- Modelled from the spec: `Node::rGetLocation()`, read access to the position. -/
def Node.rGetLocation {DIM : Nat} (n : Node DIM) : c_vector DIM := n.mLocation

/-- Modelled from the spec: `Node::AddAppliedForceContribution(f)`, the force-accumulation entry
point: the contribution is added to the accumulated force, everything else is kept. -/
def Node.AddAppliedForceContribution {DIM : Nat} (n : Node DIM) (f : c_vector DIM) : Node DIM :=
  { n with mAppliedForce := vadd n.mAppliedForce f }

/-- Modelled from the spec: the mesh behind a population: the ordered collection of nodes and
the boundary-aware displacement operator `GetVectorFromAtoB(a, b)`. -/
structure Mesh (DIM : Nat) where
  mNodes : List (Node DIM)
  GetVectorFromAtoB : c_vector DIM → c_vector DIM → c_vector DIM

/-- Modelled from the spec: `Mesh::GetNumNodes()`. -/
def Mesh.GetNumNodes {DIM : Nat} (m : Mesh DIM) : Nat := m.mNodes.length

/-- Modelled from the spec: an `AbstractCellPopulation<DIM>` as seen by the two components.
`isVertexBased` is the outcome of `dynamic_cast<VertexBasedCellPopulation<DIM>*>`; `centroidOf`
is the engine's centroid aggregate, a function of the current node state. -/
structure AbstractCellPopulation (DIM : Nat) where
  isVertexBased : Bool
  mrMesh : Mesh DIM
  centroidOf : List (Node DIM) → c_vector DIM

namespace AbstractCellPopulation

variable {DIM : Nat}

/-- Modelled from the spec: `GetCentroidOfCellPopulation()`, the centroid of the current
state. -/
def GetCentroidOfCellPopulation (p : AbstractCellPopulation DIM) : c_vector DIM :=
  p.centroidOf p.mrMesh.mNodes

/-- Modelled from the spec: `GetNumNodes()`, the number of nodes of the mesh. -/
def GetNumNodes (p : AbstractCellPopulation DIM) : Nat := p.mrMesh.GetNumNodes

/-- Modelled from the spec: `GetNode(index)`. -/
def GetNode (p : AbstractCellPopulation DIM) (index : Nat) : Option (Node DIM) :=
  p.mrMesh.mNodes[index]?

/-- The population after the node behind the pointer `GetNode(index)` has been mutated
to `n`. -/
def setNode (p : AbstractCellPopulation DIM) (index : Nat) (n : Node DIM) :
    AbstractCellPopulation DIM :=
  { p with mrMesh := { p.mrMesh with mNodes := p.mrMesh.mNodes.set index n } }

end AbstractCellPopulation

/-- How a call ended: it returned, or it threw through the `EXCEPTION` macro. -/
inductive Outcome where
  | returned
  | exception (msg : String)
  deriving DecidableEq

/-! ## SillyForce -/

/-- The state of a `SillyForce<DIM>` object (`SillyForce.hpp`): the strength multiplier,
initialised to `1.0`. -/
structure SillyForce where
  mStrengthMultiplier : ℚ := 1

namespace SillyForce

/-- The method `SillyForce<DIM>::GetStrengthMultiplier()`. -/
def GetStrengthMultiplier (self : SillyForce) : ℚ := self.mStrengthMultiplier

/-- The method `SillyForce<DIM>::SetStrengthMultiplier(strengthMultiplier)`: the object after
the call. -/
def SetStrengthMultiplier (_self : SillyForce) (strengthMultiplier : ℚ) : SillyForce :=
  { mStrengthMultiplier := strengthMultiplier }

/-- The body of the loop of `SillyForce::AddForceContribution` for one `node_index`. -/
def forceLoopBody (DIM : Nat) (self : SillyForce) (centroid : c_vector DIM)
    (rCellPopulation : AbstractCellPopulation DIM) (node_index : Nat) :
    AbstractCellPopulation DIM :=
  match rCellPopulation.GetNode node_index with
  | none => rCellPopulation
  | some p_this_node =>
    let vec_from_centroid :=
      rCellPopulation.mrMesh.GetVectorFromAtoB centroid p_this_node.rGetLocation
    let force_on_node := zero_vector DIM
    let force_on_node :=
      if DIM = 2 then
        vset (vset force_on_node 0 (-(vget vec_from_centroid 1))) 1 (vget vec_from_centroid 0)
      else force_on_node
    rCellPopulation.setNode node_index
      (p_this_node.AddAppliedForceContribution (vscale force_on_node self.mStrengthMultiplier))

/-- The method `SillyForce<DIM>::AddForceContribution(rCellPopulation)`: the outcome of the call
and the population after it. -/
def AddForceContribution (DIM : Nat) (self : SillyForce)
    (rCellPopulation : AbstractCellPopulation DIM) : Outcome × AbstractCellPopulation DIM :=
  if rCellPopulation.isVertexBased = false then
    (Outcome.exception "SillyForce is to be used with a VertexBasedCellPopulation only",
      rCellPopulation)
  else
    let centroid := rCellPopulation.GetCentroidOfCellPopulation
    (Outcome.returned,
      (List.range rCellPopulation.GetNumNodes).foldl (forceLoopBody DIM self centroid)
        rCellPopulation)

end SillyForce

/-! ## SillySimulationModifier -/

/-- Modelled from the spec: the state of a `SillySimulationModifier<DIM>` object. The header
`SillySimulationModifier.hpp` that declares it is not among the sources; the one member that
`UpdateAtEndOfTimeStep` reads and writes is `mTimeLastSquashed`, the simulated time at which
the modifier last fired. Its initial value is left to whoever constructs the object. -/
structure SillySimulationModifier where
  mTimeLastSquashed : ℚ

namespace SillySimulationModifier

/-- The body of the loop of `SillySimulationModifier::UpdateAtEndOfTimeStep` for one index
`i`: `modifiable_location` is a reference to the position of node `i`, so the assignment to
its first coordinate changes the node. -/
def squashLoopBody (DIM : Nat) (centroid : c_vector DIM)
    (rCellPopulation : AbstractCellPopulation DIM) (i : Nat) : AbstractCellPopulation DIM :=
  match rCellPopulation.GetNode i with
  | none => rCellPopulation
  | some node =>
    let modifiable_location := node.mLocation
    let modifiable_location :=
      if DIM = 2 then
        vset modifiable_location 0 (0.5 * (vget modifiable_location 0 + vget centroid 0))
      else modifiable_location
    rCellPopulation.setNode i { node with mLocation := modifiable_location }

/-- The method `SillySimulationModifier<DIM>::UpdateAtEndOfTimeStep(rCellPopulation)`, with
the clock reading `time_now` as an argument: the modifier and the population after the
call. -/
def UpdateAtEndOfTimeStep (DIM : Nat) (self : SillySimulationModifier) (time_now : ℚ)
    (rCellPopulation : AbstractCellPopulation DIM) :
    SillySimulationModifier × AbstractCellPopulation DIM :=
  if time_now - self.mTimeLastSquashed ≥ 10.0 then
    let self : SillySimulationModifier := { self with mTimeLastSquashed := time_now }
    let centroid := rCellPopulation.GetCentroidOfCellPopulation
    (self,
      (List.range rCellPopulation.mrMesh.GetNumNodes).foldl (squashLoopBody DIM centroid)
        rCellPopulation)
  else
    (self, rCellPopulation)

/-- The method `SillySimulationModifier<DIM>::SetupSolve(rCellPopulation, outputDirectory)`: its
body is empty, the modifier and the population are returned as they came. -/
def SetupSolve (DIM : Nat) (self : SillySimulationModifier)
    (rCellPopulation : AbstractCellPopulation DIM) (_outputDirectory : String) :
    SillySimulationModifier × AbstractCellPopulation DIM :=
  (self, rCellPopulation)

/-- The modifier states after each of a sequence of invocations of `UpdateAtEndOfTimeStep`, one
per completed time step: every invocation comes with the clock reading and the population the
engine hands over at that moment. -/
def invokeAll (DIM : Nat) (self : SillySimulationModifier) :
    List (ℚ × AbstractCellPopulation DIM) → List SillySimulationModifier
  | [] => []
  | (time_now, rCellPopulation) :: calls =>
    let after := (UpdateAtEndOfTimeStep DIM self time_now rCellPopulation).1
    after :: invokeAll DIM after calls

end SillySimulationModifier

/-! ## Vocabulary of the planar claims -/

/-- The dot product of two planar vectors. -/
def dot2 (u v : c_vector 2) : ℚ := u 0 * v 0 + u 1 * v 1

/-- The planar cross product `u.x * v.y - u.y * v.x`. -/
def cross2 (u v : c_vector 2) : ℚ := u 0 * v 1 - u 1 * v 0

/-- The number `m` is the magnitude (Euclidean length) of the planar vector `v`: it is not
negative and its square is `v.x² + v.y²`. -/
def IsMagnitude (v : c_vector 2) (m : ℚ) : Prop := 0 ≤ m ∧ m * m = dot2 v v

/-- The force a call added to a node: accumulated force after the call minus accumulated
force before it. -/
def addedForce {DIM : Nat} (before after : Node DIM) : c_vector DIM :=
  fun j => after.mAppliedForce j - before.mAppliedForce j

/-! ## Example populations -/

/-- The plain, non-periodic displacement operator: the vector from `a` to `b` is `b - a`. -/
def plainVectorFromAtoB {DIM : Nat} (a b : c_vector DIM) : c_vector DIM := fun j => b j - a j

/-- The arithmetic mean of the node positions, as a centroid aggregate. -/
def meanCentroid {DIM : Nat} (nodes : List (Node DIM)) : c_vector DIM :=
  fun j => (nodes.map (fun n => n.mLocation j)).sum / nodes.length

/-- A planar node at `(x, y)` with an empty force accumulator. -/
def planarNode (index : Nat) (x y : ℚ) : Node 2 :=
  { mIndex := index, mLocation := ![x, y], mAppliedForce := zero_vector 2 }

/-- A vertex-based planar population with a single node at `(2,0)` whose centroid aggregate
reports `(0,0)`, on a non-periodic mesh. -/
def singleNodePopulation : AbstractCellPopulation 2 :=
  { isVertexBased := true
    mrMesh := { mNodes := [planarNode 0 2 0]
                GetVectorFromAtoB := plainVectorFromAtoB }
    centroidOf := fun _ => ![0, 0] }

/-- A vertex-based planar population with a single node at `(2,0)` whose centroid is the mean
of its node positions, so that the node sits on the centroid. -/
def nodeOnCentroidPopulation : AbstractCellPopulation 2 :=
  { isVertexBased := true
    mrMesh := { mNodes := [planarNode 0 2 0]
                GetVectorFromAtoB := plainVectorFromAtoB }
    centroidOf := meanCentroid }

/-- A planar population with four nodes on a square centred at `(0,0)`, one of them at `(1,0)`;
the centroid is the mean of the node positions. -/
def squarePopulation : AbstractCellPopulation 2 :=
  { isVertexBased := true
    mrMesh := { mNodes := [planarNode 0 1 0, planarNode 1 0 1, planarNode 2 (-1) 0,
                  planarNode 3 0 (-1)]
                GetVectorFromAtoB := plainVectorFromAtoB }
    centroidOf := meanCentroid }

/-- A node in three dimensions at `(x, y, z)` carrying the accumulated force `(1, 2, 3)`. -/
def spatialNode (index : Nat) (x y z : ℚ) : Node 3 :=
  { mIndex := index, mLocation := ![x, y, z], mAppliedForce := ![1, 2, 3] }

/-- A population in three dimensions with two nodes, vertex-based or not as the flag says. -/
def spatialPopulation (vertexBased : Bool) : AbstractCellPopulation 3 :=
  { isVertexBased := vertexBased
    mrMesh := { mNodes := [spatialNode 0 1 2 3, spatialNode 1 (-1) 0 5]
                GetVectorFromAtoB := plainVectorFromAtoB }
    centroidOf := meanCentroid }

/-! ## Loops over the nodes -/

/-- The population `p` with its node list replaced. -/
def withNodes {DIM : Nat} (p : AbstractCellPopulation DIM) (ns : List (Node DIM)) :
    AbstractCellPopulation DIM :=
  { p with mrMesh := { p.mrMesh with mNodes := ns } }

/-- One pass of a node loop on the bare node list: the node at index `i` becomes `f` of it. -/
def listStep {α : Type} (f : α → α) (acc : List α) (i : Nat) : List α :=
  match acc[i]? with
  | none => acc
  | some a => acc.set i (f a)

/-- What `SillyForce::AddForceContribution` does to one node, given the centroid and the
displacement operator. -/
def SillyForce.nodeUpdate (DIM : Nat) (self : SillyForce) (centroid : c_vector DIM)
    (op : c_vector DIM → c_vector DIM → c_vector DIM) (n : Node DIM) : Node DIM :=
  n.AddAppliedForceContribution
    (vscale
      (if DIM = 2 then
        vset (vset (zero_vector DIM) 0 (-(vget (op centroid n.mLocation) 1))) 1
          (vget (op centroid n.mLocation) 0)
      else zero_vector DIM)
      self.mStrengthMultiplier)

/-- What a firing `SillySimulationModifier::UpdateAtEndOfTimeStep` does to one node, given the
centroid. -/
def SillySimulationModifier.nodeUpdate (DIM : Nat) (centroid : c_vector DIM) (n : Node DIM) :
    Node DIM :=
  { n with mLocation :=
      if DIM = 2 then vset n.mLocation 0 (0.5 * (vget n.mLocation 0 + vget centroid 0))
      else n.mLocation }

/-! ## Firing schedule of the modifier -/

namespace SillySimulationModifier

/-- The modifier state after a whole sequence of invocations of `UpdateAtEndOfTimeStep`, each
with its clock reading and the population handed over at that moment. -/
def stateAfter (DIM : Nat) (self : SillySimulationModifier) :
    List (ℚ × AbstractCellPopulation DIM) → SillySimulationModifier
  | [] => self
  | (time_now, rCellPopulation) :: calls =>
    stateAfter DIM (UpdateAtEndOfTimeStep DIM self time_now rCellPopulation).1 calls

/-- The clock readings, in order, of the invocations that fire. An invocation is seen to fire
when `UpdateAtEndOfTimeStep` leaves the timer `mTimeLastSquashed` different from what it
was. -/
def firingTimes (DIM : Nat) (self : SillySimulationModifier) :
    List (ℚ × AbstractCellPopulation DIM) → List ℚ
  | [] => []
  | (time_now, rCellPopulation) :: calls =>
    let after := (UpdateAtEndOfTimeStep DIM self time_now rCellPopulation).1
    if after.mTimeLastSquashed ≠ self.mTimeLastSquashed then
      time_now :: firingTimes DIM after calls
    else
      firingTimes DIM after calls

end SillySimulationModifier

/-- The invocations of a run with constant time step `dt`, one after each of `steps` completed
steps starting at time `0`: the clock reads `dt, 2 dt, ..., steps * dt`, and every invocation
is handed the population `pop`. -/
def steppedCalls {DIM : Nat} (dt : ℚ) (steps : Nat) (pop : AbstractCellPopulation DIM) :
    List (ℚ × AbstractCellPopulation DIM) :=
  (List.range steps).map (fun k => (((k + 1 : Nat) : ℚ) * dt, pop))

/-! ## The centroid as an aggregate of positions -/

/-- The centroid aggregate of the population reads node positions only: two node states with
the same positions, in the same order, have the same centroid. -/
def CentroidOfPositions {DIM : Nat} (p : AbstractCellPopulation DIM) : Prop :=
  ∀ ns ns' : List (Node DIM),
    ns.map (fun n => n.mLocation) = ns'.map (fun n => n.mLocation) →
    p.centroidOf ns = p.centroidOf ns'

/-! ## Archiving and parameter output of SillyForce -/

/-- Modelled from the spec: a Boost archive, reduced to its direction (`Archive::is_saving`) and
the sequence of numbers it holds: those written so far when saving, those not yet read when
loading. Values are stored as they are. -/
structure Archive where
  is_saving : Bool
  data : List ℚ

/-- Modelled from the spec: `archive & x` for a number `x`. A saving archive appends `x` and
leaves it alone; a loading archive hands out its next number as the new value of `x`, and fails
when it is exhausted. -/
def Archive.amp (archive : Archive) (x : ℚ) : Option (Archive × ℚ) :=
  if archive.is_saving then
    some ({ archive with data := archive.data ++ [x] }, x)
  else
    match archive.data with
    | [] => none
    | v :: rest => some ({ archive with data := rest }, v)

namespace SillyForce

/-- The method `SillyForce<DIM>::serialize(archive, version)` (`SillyForce.hpp`): the base
object `AbstractForce<DIM>` is archived first, then `mStrengthMultiplier`. The base class has
no state in this embedding and contributes nothing to the archive. The result is the object
and the archive after the call. -/
def serialize (self : SillyForce) (archive : Archive) : Option (SillyForce × Archive) :=
  match archive.amp self.mStrengthMultiplier with
  | none => none
  | some (archive, strengthMultiplier) =>
    some ({ mStrengthMultiplier := strengthMultiplier }, archive)

/-- The method `SillyForce<DIM>::OutputForceParameters(rParamsFile)`. The stream is the text
written to it so far. Two pieces of engine code are arguments: `formatDouble`, the stream's
rendering of a `double`, and `baseOutputForceParameters`, the method of the direct parent class
`AbstractForce<DIM>`. The result is the stream after the call. -/
def OutputForceParameters (formatDouble : ℚ → String)
    (baseOutputForceParameters : String → String) (self : SillyForce) (rParamsFile : String) :
    String :=
  let rParamsFile := rParamsFile ++ "\t\t\t<StrengthMultiplier>"
    ++ formatDouble self.mStrengthMultiplier ++ "</StrengthMultiplier>\n"
  baseOutputForceParameters rParamsFile

end SillyForce

/-! ## The firing procedure in the words of the specification -/

/-- Follows the specification, not the code: one node of the firing pass as the specification
words it, "for every node compute `centroid = population.centroid()` and set the node's first
coordinate to `0.5 * (node.x + centroid.x)`": the centroid is computed from the population as it
is when node `i` is reached. -/
def specSquashStep (population : AbstractCellPopulation 2) (i : Nat) :
    AbstractCellPopulation 2 :=
  match population.GetNode i with
  | none => population
  | some node =>
    let centroid := population.GetCentroidOfCellPopulation
    population.setNode i
      { node with mLocation := vset node.mLocation 0 (0.5 * (node.mLocation 0 + centroid 0)) }

/-- Follows the specification, not the code: the firing transition as the specification words
it, "update `lastFired = now`, then for every node (index-ascending order) compute the centroid
and set the node's first coordinate". -/
def specFiringProcedure (self : SillySimulationModifier) (now : ℚ)
    (population : AbstractCellPopulation 2) :
    SillySimulationModifier × AbstractCellPopulation 2 :=
  ({ self with mTimeLastSquashed := now },
    (List.range population.GetNumNodes).foldl specSquashStep population)

/-! ## A periodic mesh -/

/-- The displacement operator of a mesh that is periodic in the first coordinate with period
`width`: the plain difference, with its first coordinate taken the short way round. -/
def cylindricalVectorFromAtoB (width : ℚ) (a b : c_vector 2) : c_vector 2 :=
  let dx := b 0 - a 0
  let dx := if dx > width / 2 then dx - width else if dx < -(width / 2) then dx + width else dx
  ![dx, b 1 - a 1]

/-- A vertex-based planar population on a mesh of period `10` in the first coordinate, with
nodes at `(1,0)`, `(9,0)`, `(9,1)`, `(9,2)`; the centroid is the mean of the node positions,
`(7, 3/4)`. -/
def cylinderPopulation : AbstractCellPopulation 2 :=
  { isVertexBased := true
    mrMesh := { mNodes := [planarNode 0 1 0, planarNode 1 9 0, planarNode 2 9 1,
                  planarNode 3 9 2]
                GetVectorFromAtoB := cylindricalVectorFromAtoB 10 }
    centroidOf := meanCentroid }

/-- A vertex-based planar population with two nodes, at `(1,0)` and `(3,0)`, on a non-periodic
mesh; the centroid is the mean of the node positions, `(2,0)`. -/
def twoNodePopulation : AbstractCellPopulation 2 :=
  { isVertexBased := true
    mrMesh := { mNodes := [planarNode 0 1 0, planarNode 1 3 0]
                GetVectorFromAtoB := plainVectorFromAtoB }
    centroidOf := meanCentroid }

/-! ## Net force -/

/-- The net force a call added to the population: the sum, over all nodes in index order, of
the force added to each node. -/
def netAddedForce {DIM : Nat} (before after : AbstractCellPopulation DIM) : c_vector DIM :=
  fun j =>
    ((List.zipWith addedForce before.mrMesh.mNodes after.mrMesh.mNodes).map (fun v => v j)).sum

/-- The four nodes of the square population, at `(1,0)`, `(0,1)`, `(-1,0)`, `(0,-1)`, in a
population whose centroid aggregate reports `(0,0)` whatever the positions of the nodes. -/
def squareFixedCentroidPopulation : AbstractCellPopulation 2 :=
  { isVertexBased := true
    mrMesh := { mNodes := [planarNode 0 1 0, planarNode 1 0 1, planarNode 2 (-1) 0,
                  planarNode 3 0 (-1)]
                GetVectorFromAtoB := plainVectorFromAtoB }
    centroidOf := fun _ => ![0, 0] }

/-! ## Lemmas on the node loops -/

theorem foldl_range_listStep {α : Type} (f : α → α) (l : List α) (k : Nat)
    (hk : k ≤ l.length) :
    (List.range k).foldl (listStep f) l = (l.take k).map f ++ l.drop k := by
  induction k with
  | zero => simp
  | succ k ih =>
    have hk1 : k < l.length := hk
    rw [List.range_succ, List.foldl_append, ih (Nat.le_of_lt hk1)]
    simp only [List.foldl_cons, List.foldl_nil, listStep]
    have hlen : ((l.take k).map f).length = k := by simp; omega
    rw [List.getElem?_append_right (by omega)]
    simp only [hlen, Nat.sub_self]
    rw [List.getElem?_drop]
    simp only [Nat.add_zero, List.getElem?_eq_getElem hk1]
    rw [List.take_succ, List.getElem?_eq_getElem hk1]
    rw [List.set_append_right _ _ (by omega)]
    simp only [hlen, Nat.sub_self, List.drop_eq_getElem_cons hk1, List.set_cons_zero,
      List.map_append, List.map_cons, List.map_nil, Option.toList, List.append_assoc,
      List.singleton_append]

theorem foldl_range_listStep_all {α : Type} (f : α → α) (l : List α) :
    (List.range l.length).foldl (listStep f) l = l.map f := by
  rw [foldl_range_listStep f l l.length (Nat.le_refl _)]
  simp

/-- A loop whose body rewrites the node at the loop index by a function that depends on the
population only through its displacement operator rewrites every node by that function. -/
theorem foldl_nodeLoop {DIM : Nat}
    (body : AbstractCellPopulation DIM → Nat → AbstractCellPopulation DIM)
    (upd : (c_vector DIM → c_vector DIM → c_vector DIM) → Node DIM → Node DIM)
    (hbody : ∀ q i, body q i
      = withNodes q (listStep (upd q.mrMesh.GetVectorFromAtoB) q.mrMesh.mNodes i))
    (p : AbstractCellPopulation DIM) :
    (List.range p.mrMesh.mNodes.length).foldl body p
      = withNodes p (p.mrMesh.mNodes.map (upd p.mrMesh.GetVectorFromAtoB)) := by
  have key : ∀ (l : List Nat) (q : AbstractCellPopulation DIM),
      l.foldl body q
        = withNodes q (l.foldl (listStep (upd q.mrMesh.GetVectorFromAtoB)) q.mrMesh.mNodes) := by
    intro l
    induction l with
    | nil => intro q; rfl
    | cons i l ih =>
      intro q
      rw [List.foldl_cons, ih, hbody]
      rfl
  rw [key, foldl_range_listStep_all]

theorem SillyForce.forceLoopBody_eq (DIM : Nat) (self : SillyForce) (centroid : c_vector DIM)
    (q : AbstractCellPopulation DIM) (i : Nat) :
    SillyForce.forceLoopBody DIM self centroid q i
      = withNodes q (listStep (SillyForce.nodeUpdate DIM self centroid
          q.mrMesh.GetVectorFromAtoB) q.mrMesh.mNodes i) := by
  unfold SillyForce.forceLoopBody listStep AbstractCellPopulation.GetNode
  cases h : q.mrMesh.mNodes[i]? with
  | none => rfl
  | some n => rfl

/-- The population after a call of `AddForceContribution` on a vertex-based population. -/
theorem SillyForce.AddForceContribution_vertex (DIM : Nat) (self : SillyForce)
    (pop : AbstractCellPopulation DIM) (hv : pop.isVertexBased = true) :
    SillyForce.AddForceContribution DIM self pop
      = (Outcome.returned,
          withNodes pop (pop.mrMesh.mNodes.map
            (SillyForce.nodeUpdate DIM self pop.GetCentroidOfCellPopulation
              pop.mrMesh.GetVectorFromAtoB))) := by
  unfold SillyForce.AddForceContribution
  simp only [hv, Bool.true_eq_false, if_false]
  rw [show pop.GetNumNodes = pop.mrMesh.mNodes.length from rfl,
    foldl_nodeLoop _ (SillyForce.nodeUpdate DIM self pop.GetCentroidOfCellPopulation)
      (SillyForce.forceLoopBody_eq DIM self pop.GetCentroidOfCellPopulation) pop]

/-- The planar node update in coordinates: the force gains `s * (-d.y, d.x)`. -/
theorem SillyForce.nodeUpdate_planar (self : SillyForce) (centroid : c_vector 2)
    (op : c_vector 2 → c_vector 2 → c_vector 2) (n : Node 2) :
    (SillyForce.nodeUpdate 2 self centroid op n).mLocation = n.mLocation
    ∧ (SillyForce.nodeUpdate 2 self centroid op n).mIndex = n.mIndex
    ∧ (SillyForce.nodeUpdate 2 self centroid op n).mAppliedForce 0
        = n.mAppliedForce 0 + self.mStrengthMultiplier * (-(op centroid n.mLocation 1))
    ∧ (SillyForce.nodeUpdate 2 self centroid op n).mAppliedForce 1
        = n.mAppliedForce 1 + self.mStrengthMultiplier * (op centroid n.mLocation 0) := by
  refine ⟨rfl, rfl, ?_, ?_⟩
  · simp [SillyForce.nodeUpdate, Node.AddAppliedForceContribution, vadd, vscale, vset, vget]
    ring
  · simp [SillyForce.nodeUpdate, Node.AddAppliedForceContribution, vadd, vscale, vset, vget]
    ring

/-- The node found at index `i` after a call of `AddForceContribution` on a vertex-based
population. -/
theorem SillyForce.GetNode_after (DIM : Nat) (self : SillyForce)
    (pop : AbstractCellPopulation DIM) (hv : pop.isVertexBased = true) (i : Nat) (n : Node DIM)
    (hn : pop.GetNode i = some n) :
    (SillyForce.AddForceContribution DIM self pop).2.GetNode i
      = some (SillyForce.nodeUpdate DIM self pop.GetCentroidOfCellPopulation
          pop.mrMesh.GetVectorFromAtoB n) := by
  rw [SillyForce.AddForceContribution_vertex DIM self pop hv]
  have hn' : pop.mrMesh.mNodes[i]? = some n := hn
  simp [AbstractCellPopulation.GetNode, withNodes, List.getElem?_map, hn']

/-- The force added to a planar node is `s * (-d.y, d.x)`. -/
theorem SillyForce.addedForce_planar (self : SillyForce) (centroid : c_vector 2)
    (op : c_vector 2 → c_vector 2 → c_vector 2) (n : Node 2) :
    addedForce n (SillyForce.nodeUpdate 2 self centroid op n) 0
        = self.mStrengthMultiplier * (-(op centroid n.mLocation 1))
    ∧ addedForce n (SillyForce.nodeUpdate 2 self centroid op n) 1
        = self.mStrengthMultiplier * (op centroid n.mLocation 0) := by
  obtain ⟨-, -, h0, h1⟩ := SillyForce.nodeUpdate_planar self centroid op n
  constructor
  · simp only [addedForce, h0]; ring
  · simp only [addedForce, h1]; ring

/-- Outside the plane the node update adds the zero vector: the node is unchanged. -/
theorem SillyForce.nodeUpdate_nonplanar (DIM : Nat) (hD : DIM ≠ 2) (self : SillyForce)
    (centroid : c_vector DIM) (op : c_vector DIM → c_vector DIM → c_vector DIM)
    (n : Node DIM) :
    SillyForce.nodeUpdate DIM self centroid op n = n := by
  have hz : vadd n.mAppliedForce (vscale (zero_vector DIM) self.mStrengthMultiplier)
      = n.mAppliedForce := by
    funext j
    simp [vadd, vscale, zero_vector]
  simp [SillyForce.nodeUpdate, Node.AddAppliedForceContribution, hD, hz]

/-- Replacing the node list of a population by itself changes nothing. -/
theorem withNodes_self {DIM : Nat} (p : AbstractCellPopulation DIM) :
    withNodes p p.mrMesh.mNodes = p := rfl

/-- Outside the plane a call of `AddForceContribution` on a vertex-based population returns it
as it was. -/
theorem SillyForce.AddForceContribution_nonplanar (DIM : Nat) (hD : DIM ≠ 2) (self : SillyForce)
    (pop : AbstractCellPopulation DIM) (hv : pop.isVertexBased = true) :
    SillyForce.AddForceContribution DIM self pop = (Outcome.returned, pop) := by
  rw [SillyForce.AddForceContribution_vertex DIM self pop hv]
  have hid : SillyForce.nodeUpdate DIM self pop.GetCentroidOfCellPopulation
      pop.mrMesh.GetVectorFromAtoB = id := by
    funext n
    exact SillyForce.nodeUpdate_nonplanar DIM hD self _ _ n
  rw [hid, List.map_id, withNodes_self]

theorem SillySimulationModifier.squashLoopBody_eq (DIM : Nat) (centroid : c_vector DIM)
    (q : AbstractCellPopulation DIM) (i : Nat) :
    SillySimulationModifier.squashLoopBody DIM centroid q i
      = withNodes q (listStep (SillySimulationModifier.nodeUpdate DIM centroid)
          q.mrMesh.mNodes i) := by
  unfold SillySimulationModifier.squashLoopBody listStep AbstractCellPopulation.GetNode
  cases h : q.mrMesh.mNodes[i]? with
  | none => rfl
  | some n => rfl

/-- A firing invocation: the timer is set to the clock reading and every node is rewritten with
the centroid read before the loop. -/
theorem SillySimulationModifier.UpdateAtEndOfTimeStep_firing (DIM : Nat)
    (self : SillySimulationModifier) (time_now : ℚ) (pop : AbstractCellPopulation DIM)
    (h : time_now - self.mTimeLastSquashed ≥ 10.0) :
    SillySimulationModifier.UpdateAtEndOfTimeStep DIM self time_now pop
      = ({ self with mTimeLastSquashed := time_now },
          withNodes pop (pop.mrMesh.mNodes.map
            (SillySimulationModifier.nodeUpdate DIM pop.GetCentroidOfCellPopulation))) := by
  unfold SillySimulationModifier.UpdateAtEndOfTimeStep
  rw [if_pos h]
  simp only []
  rw [show pop.mrMesh.GetNumNodes = pop.mrMesh.mNodes.length from rfl,
    foldl_nodeLoop _ (fun _ => SillySimulationModifier.nodeUpdate DIM
        pop.GetCentroidOfCellPopulation)
      (SillySimulationModifier.squashLoopBody_eq DIM pop.GetCentroidOfCellPopulation) pop]

/-- A waiting invocation changes nothing. -/
theorem SillySimulationModifier.UpdateAtEndOfTimeStep_waiting (DIM : Nat)
    (self : SillySimulationModifier) (time_now : ℚ) (pop : AbstractCellPopulation DIM)
    (h : time_now - self.mTimeLastSquashed < 10.0) :
    SillySimulationModifier.UpdateAtEndOfTimeStep DIM self time_now pop = (self, pop) := by
  unfold SillySimulationModifier.UpdateAtEndOfTimeStep
  rw [if_neg (not_le.mpr h)]

/-- The node found at index `i` after a firing invocation. -/
theorem SillySimulationModifier.GetNode_after_firing (DIM : Nat)
    (self : SillySimulationModifier) (time_now : ℚ) (pop : AbstractCellPopulation DIM)
    (h : time_now - self.mTimeLastSquashed ≥ 10.0) (i : Nat) (n : Node DIM)
    (hn : pop.GetNode i = some n) :
    (SillySimulationModifier.UpdateAtEndOfTimeStep DIM self time_now pop).2.GetNode i
      = some (SillySimulationModifier.nodeUpdate DIM pop.GetCentroidOfCellPopulation n) := by
  rw [SillySimulationModifier.UpdateAtEndOfTimeStep_firing DIM self time_now pop h]
  have hn' : pop.mrMesh.mNodes[i]? = some n := hn
  simp [AbstractCellPopulation.GetNode, withNodes, List.getElem?_map, hn']

/-- The planar squash in coordinates. -/
theorem SillySimulationModifier.squash_planar (centroid : c_vector 2) (n : Node 2) :
    (SillySimulationModifier.nodeUpdate 2 centroid n).mLocation 0
        = 0.5 * (n.mLocation 0 + centroid 0)
    ∧ (SillySimulationModifier.nodeUpdate 2 centroid n).mLocation 1 = n.mLocation 1
    ∧ (SillySimulationModifier.nodeUpdate 2 centroid n).mAppliedForce = n.mAppliedForce
    ∧ (SillySimulationModifier.nodeUpdate 2 centroid n).mIndex = n.mIndex := by
  refine ⟨?_, ?_, rfl, rfl⟩
  · simp [SillySimulationModifier.nodeUpdate, vset, vget]
  · simp [SillySimulationModifier.nodeUpdate, vset, vget]

/-- Outside the plane the squash leaves a node as it is. -/
theorem SillySimulationModifier.squash_nonplanar (DIM : Nat) (hD : DIM ≠ 2)
    (centroid : c_vector DIM) (n : Node DIM) :
    SillySimulationModifier.nodeUpdate DIM centroid n = n := by
  simp [SillySimulationModifier.nodeUpdate, hD]

/-- Outside the plane no invocation changes the population. -/
theorem SillySimulationModifier.UpdateAtEndOfTimeStep_nonplanar (DIM : Nat) (hD : DIM ≠ 2)
    (self : SillySimulationModifier) (time_now : ℚ) (pop : AbstractCellPopulation DIM) :
    (SillySimulationModifier.UpdateAtEndOfTimeStep DIM self time_now pop).2 = pop := by
  by_cases h : time_now - self.mTimeLastSquashed ≥ 10.0
  · rw [SillySimulationModifier.UpdateAtEndOfTimeStep_firing DIM self time_now pop h]
    have hid : SillySimulationModifier.nodeUpdate DIM pop.GetCentroidOfCellPopulation = id := by
      funext n
      exact SillySimulationModifier.squash_nonplanar DIM hD _ n
    simp only [hid, List.map_id, withNodes_self]
  · rw [SillySimulationModifier.UpdateAtEndOfTimeStep_waiting DIM self time_now pop
      (not_le.mp h)]

/-- The timer after one invocation: the clock reading if the invocation fires, the old value
otherwise. -/
theorem SillySimulationModifier.lastSquashed_after (DIM : Nat) (self : SillySimulationModifier)
    (time_now : ℚ) (pop : AbstractCellPopulation DIM) :
    (SillySimulationModifier.UpdateAtEndOfTimeStep DIM self time_now pop).1.mTimeLastSquashed
      = if time_now - self.mTimeLastSquashed ≥ 10.0 then time_now
        else self.mTimeLastSquashed := by
  unfold SillySimulationModifier.UpdateAtEndOfTimeStep
  split <;> rfl

/-- One invocation never moves the timer backwards. -/
theorem SillySimulationModifier.lastSquashed_le_after (DIM : Nat)
    (self : SillySimulationModifier) (time_now : ℚ) (pop : AbstractCellPopulation DIM) :
    self.mTimeLastSquashed
      ≤ (SillySimulationModifier.UpdateAtEndOfTimeStep DIM self time_now
          pop).1.mTimeLastSquashed := by
  rw [SillySimulationModifier.lastSquashed_after]
  split
  · next h =>
    norm_num at h
    linarith
  · exact le_refl _

/-- If the timer is not ahead of the clock before an invocation, it is not ahead of it
afterwards. -/
theorem SillySimulationModifier.lastSquashed_after_le_now (DIM : Nat)
    (self : SillySimulationModifier) (time_now : ℚ) (pop : AbstractCellPopulation DIM)
    (h : self.mTimeLastSquashed ≤ time_now) :
    (SillySimulationModifier.UpdateAtEndOfTimeStep DIM self time_now
        pop).1.mTimeLastSquashed ≤ time_now := by
  rw [SillySimulationModifier.lastSquashed_after]
  split
  · exact le_refl _
  · exact h

/-! ## Claims about `SillyForce::AddForceContribution` -/

/-- C1: in dimension 2, on a vertex-based population, one call of `AddForceContribution`
returns and changes the accumulated force of each node from `F` to `F + s * (-d.y, d.x)`,
where `d = GetVectorFromAtoB(centroid, position)` and the centroid is the one read from the
population as it is at the start of the call. -/
theorem C1_AddForceContribution_planar (self : SillyForce) (pop : AbstractCellPopulation 2)
    (hv : pop.isVertexBased = true) :
    (SillyForce.AddForceContribution 2 self pop).1 = Outcome.returned
    ∧ (SillyForce.AddForceContribution 2 self pop).2.GetNumNodes = pop.GetNumNodes
    ∧ ∀ (i : Nat) (n : Node 2), pop.GetNode i = some n →
        ∃ n', (SillyForce.AddForceContribution 2 self pop).2.GetNode i = some n'
          ∧ n'.mAppliedForce 0 = n.mAppliedForce 0 + self.mStrengthMultiplier *
              (-(pop.mrMesh.GetVectorFromAtoB pop.GetCentroidOfCellPopulation n.mLocation 1))
          ∧ n'.mAppliedForce 1 = n.mAppliedForce 1 + self.mStrengthMultiplier *
              (pop.mrMesh.GetVectorFromAtoB pop.GetCentroidOfCellPopulation n.mLocation 0) := by
  rw [SillyForce.AddForceContribution_vertex 2 self pop hv]
  refine ⟨rfl, ?_, ?_⟩
  · simp [AbstractCellPopulation.GetNumNodes, Mesh.GetNumNodes, withNodes]
  · intro i n hn
    refine ⟨SillyForce.nodeUpdate 2 self pop.GetCentroidOfCellPopulation
      pop.mrMesh.GetVectorFromAtoB n, ?_, ?_⟩
    · have hn' : pop.mrMesh.mNodes[i]? = some n := hn
      simp [AbstractCellPopulation.GetNode, withNodes, List.getElem?_map, hn']
    · exact (SillyForce.nodeUpdate_planar self _ _ n).2.2

/-- C1, scenario: a node at `(2,0)` with centroid `(0,0)` and strength `1.0` receives the force
`(0, 2)`. -/
theorem C1_AddForceContribution_planar_witness :
    singleNodePopulation.isVertexBased = true
    ∧ singleNodePopulation.GetCentroidOfCellPopulation = ![0, 0]
    ∧ singleNodePopulation.GetNode 0 = some (planarNode 0 2 0)
    ∧ ∃ n', (SillyForce.AddForceContribution 2 {} singleNodePopulation).2.GetNode 0 = some n'
        ∧ n'.mAppliedForce 0 = 0 ∧ n'.mAppliedForce 1 = 2 := by
  refine ⟨rfl, rfl, rfl, ?_⟩
  obtain ⟨n', h1, h2, h3⟩ :=
    (C1_AddForceContribution_planar {} singleNodePopulation rfl).2.2 0 (planarNode 0 2 0) rfl
  refine ⟨n', h1, ?_, ?_⟩
  · rw [h2]
    simp [singleNodePopulation, planarNode, plainVectorFromAtoB, zero_vector,
      AbstractCellPopulation.GetCentroidOfCellPopulation]
  · rw [h3]
    simp [singleNodePopulation, planarNode, plainVectorFromAtoB, zero_vector,
      AbstractCellPopulation.GetCentroidOfCellPopulation]

/-- C2 (as amended): in dimension 2, on a vertex-based population, the force added to a node by
one call of `AddForceContribution` is perpendicular to the displacement `d` from the centroid
to the node (`dot(d, added) = 0`), its squared length is `s² * |d|²`, and whenever `|d|` is
`m` the length of the added force is `|s| * m`. -/
theorem C2_added_force_perpendicular (self : SillyForce) (pop : AbstractCellPopulation 2)
    (hv : pop.isVertexBased = true) (i : Nat) (n : Node 2) (hn : pop.GetNode i = some n) :
    ∃ n', (SillyForce.AddForceContribution 2 self pop).2.GetNode i = some n'
      ∧ dot2 (pop.mrMesh.GetVectorFromAtoB pop.GetCentroidOfCellPopulation n.mLocation)
          (addedForce n n') = 0
      ∧ dot2 (addedForce n n') (addedForce n n')
          = self.mStrengthMultiplier * self.mStrengthMultiplier *
            dot2 (pop.mrMesh.GetVectorFromAtoB pop.GetCentroidOfCellPopulation n.mLocation)
              (pop.mrMesh.GetVectorFromAtoB pop.GetCentroidOfCellPopulation n.mLocation)
      ∧ ∀ m : ℚ,
          IsMagnitude (pop.mrMesh.GetVectorFromAtoB pop.GetCentroidOfCellPopulation n.mLocation) m →
          IsMagnitude (addedForce n n') (|self.mStrengthMultiplier| * m) := by
  refine ⟨_, SillyForce.GetNode_after 2 self pop hv i n hn, ?_, ?_, ?_⟩
  · obtain ⟨h0, h1⟩ := SillyForce.addedForce_planar self pop.GetCentroidOfCellPopulation
      pop.mrMesh.GetVectorFromAtoB n
    simp only [dot2, h0, h1]; ring
  · obtain ⟨h0, h1⟩ := SillyForce.addedForce_planar self pop.GetCentroidOfCellPopulation
      pop.mrMesh.GetVectorFromAtoB n
    simp only [dot2, h0, h1]; ring
  · intro m hm
    obtain ⟨h0, h1⟩ := SillyForce.addedForce_planar self pop.GetCentroidOfCellPopulation
      pop.mrMesh.GetVectorFromAtoB n
    obtain ⟨hm0, hm1⟩ := hm
    refine ⟨mul_nonneg (abs_nonneg _) hm0, ?_⟩
    simp only [dot2, h0, h1] at hm1 ⊢
    have habs : |self.mStrengthMultiplier| * |self.mStrengthMultiplier|
        = self.mStrengthMultiplier * self.mStrengthMultiplier := abs_mul_abs_self _
    calc |self.mStrengthMultiplier| * m * (|self.mStrengthMultiplier| * m)
        = (|self.mStrengthMultiplier| * |self.mStrengthMultiplier|) * (m * m) := by ring
      _ = self.mStrengthMultiplier * self.mStrengthMultiplier * (m * m) := by rw [habs]
      _ = _ := by rw [hm1]; ring

/-- C2, instance: on the single node at `(2,0)` with centroid `(0,0)` and strength `-1` the
added force is perpendicular to `d = (2,0)` and has length `|-1| * 2`. -/
theorem C2_added_force_perpendicular_witness :
    singleNodePopulation.isVertexBased = true
    ∧ singleNodePopulation.GetNode 0 = some (planarNode 0 2 0)
    ∧ ∃ n', (SillyForce.AddForceContribution 2 ⟨-1⟩ singleNodePopulation).2.GetNode 0 = some n'
        ∧ dot2 ![2, 0] (addedForce (planarNode 0 2 0) n') = 0
        ∧ IsMagnitude (addedForce (planarNode 0 2 0) n') 2 := by
  refine ⟨rfl, rfl, ?_⟩
  obtain ⟨n', h1, h2, -, h4⟩ :=
    C2_added_force_perpendicular ⟨-1⟩ singleNodePopulation rfl 0 (planarNode 0 2 0) rfl
  have hd : singleNodePopulation.mrMesh.GetVectorFromAtoB
      singleNodePopulation.GetCentroidOfCellPopulation (planarNode 0 2 0).mLocation
        = ![2, 0] := by
    funext j
    fin_cases j <;>
      simp [singleNodePopulation, planarNode, plainVectorFromAtoB,
        AbstractCellPopulation.GetCentroidOfCellPopulation]
  rw [hd] at h2 h4
  refine ⟨n', h1, h2, ?_⟩
  have := h4 2 (by constructor <;> norm_num [dot2])
  norm_num at this
  exact this

/-- C2, counterexample to the magnitude `s * |d|`: on the single node at `(2,0)` with centroid
`(0,0)` and strength `-1`, the displacement has length `2`, the added force is `(0,-2)`, and
`s * |d| = -2` is not its length. -/
theorem C2_magnitude_counterexample :
    singleNodePopulation.isVertexBased = true
    ∧ singleNodePopulation.GetNode 0 = some (planarNode 0 2 0)
    ∧ IsMagnitude (singleNodePopulation.mrMesh.GetVectorFromAtoB
        singleNodePopulation.GetCentroidOfCellPopulation (planarNode 0 2 0).mLocation) 2
    ∧ ∃ n', (SillyForce.AddForceContribution 2 ⟨-1⟩ singleNodePopulation).2.GetNode 0 = some n'
        ∧ addedForce (planarNode 0 2 0) n' = ![0, -2]
        ∧ ¬ IsMagnitude (addedForce (planarNode 0 2 0) n') ((-1) * 2) := by
  refine ⟨rfl, rfl, ?_, _, SillyForce.GetNode_after 2 ⟨-1⟩ singleNodePopulation rfl 0 _ rfl,
    ?_, ?_⟩
  · constructor <;>
      norm_num [dot2, singleNodePopulation, planarNode, plainVectorFromAtoB,
        AbstractCellPopulation.GetCentroidOfCellPopulation]
  · funext j
    fin_cases j <;>
      simp [addedForce, SillyForce.nodeUpdate, Node.AddAppliedForceContribution, vadd, vscale,
        vset, vget, zero_vector, singleNodePopulation, planarNode, plainVectorFromAtoB,
        AbstractCellPopulation.GetCentroidOfCellPopulation]
  · intro h
    have := h.1
    norm_num at this

/-- C3 (as amended): in dimension 2, on a vertex-based population, for every strength `s` the
force added to a node by one call of `AddForceContribution` satisfies
`cross(d, added) = s * |d|²`, where `d` is the displacement from the centroid to the node; so
whenever `s > 0` the cross product is never negative, and it is positive exactly when `d` is not
the zero vector. -/
theorem C3_added_force_counter_clockwise (self : SillyForce) (pop : AbstractCellPopulation 2)
    (hv : pop.isVertexBased = true) (i : Nat) (n : Node 2) (hn : pop.GetNode i = some n) :
    ∃ n', (SillyForce.AddForceContribution 2 self pop).2.GetNode i = some n'
      ∧ cross2 (pop.mrMesh.GetVectorFromAtoB pop.GetCentroidOfCellPopulation n.mLocation)
          (addedForce n n')
        = self.mStrengthMultiplier *
            dot2 (pop.mrMesh.GetVectorFromAtoB pop.GetCentroidOfCellPopulation n.mLocation)
              (pop.mrMesh.GetVectorFromAtoB pop.GetCentroidOfCellPopulation n.mLocation)
      ∧ (0 < self.mStrengthMultiplier →
          0 ≤ cross2 (pop.mrMesh.GetVectorFromAtoB pop.GetCentroidOfCellPopulation n.mLocation)
            (addedForce n n')
          ∧ (0 < cross2
                (pop.mrMesh.GetVectorFromAtoB pop.GetCentroidOfCellPopulation n.mLocation)
                (addedForce n n')
              ↔ pop.mrMesh.GetVectorFromAtoB pop.GetCentroidOfCellPopulation n.mLocation
                  ≠ zero_vector 2)) := by
  obtain ⟨h0, h1⟩ := SillyForce.addedForce_planar self pop.GetCentroidOfCellPopulation
    pop.mrMesh.GetVectorFromAtoB n
  have hcross : cross2 (pop.mrMesh.GetVectorFromAtoB pop.GetCentroidOfCellPopulation n.mLocation)
      (addedForce n (SillyForce.nodeUpdate 2 self pop.GetCentroidOfCellPopulation
        pop.mrMesh.GetVectorFromAtoB n))
      = self.mStrengthMultiplier *
          dot2 (pop.mrMesh.GetVectorFromAtoB pop.GetCentroidOfCellPopulation n.mLocation)
            (pop.mrMesh.GetVectorFromAtoB pop.GetCentroidOfCellPopulation n.mLocation) := by
    simp only [cross2, dot2, h0, h1]; ring
  refine ⟨_, SillyForce.GetNode_after 2 self pop hv i n hn, hcross, ?_⟩
  intro hs
  constructor
  · rw [hcross]
    exact mul_nonneg hs.le (add_nonneg (mul_self_nonneg _) (mul_self_nonneg _))
  · rw [hcross]
    generalize pop.mrMesh.GetVectorFromAtoB pop.GetCentroidOfCellPopulation n.mLocation = d
    constructor
    · intro hpos hd
      rw [hd] at hpos
      simp [dot2, zero_vector] at hpos
    · intro hd
      apply mul_pos hs
      have hne : d 0 ≠ 0 ∨ d 1 ≠ 0 := by
        by_contra hcon
        push_neg at hcon
        apply hd
        funext j
        fin_cases j
        · exact hcon.1
        · exact hcon.2
      simp only [dot2]
      rcases hne with h | h
      · have := mul_self_pos.mpr h
        have := mul_self_nonneg (d 1)
        linarith
      · have := mul_self_pos.mpr h
        have := mul_self_nonneg (d 0)
        linarith

/-- C3, instances: on the single node at `(2,0)` with centroid `(0,0)`, where `d = (2,0)` is not
zero: with strength `1.0` the cross product of `d` and the added force is `1 * 4 = 4`,
positive; with strength `-1` it is `-1 * 4 = -4`. -/
theorem C3_added_force_counter_clockwise_witness :
    singleNodePopulation.isVertexBased = true
    ∧ singleNodePopulation.GetNode 0 = some (planarNode 0 2 0)
    ∧ (0 : ℚ) < ({} : SillyForce).mStrengthMultiplier
    ∧ (∃ n', (SillyForce.AddForceContribution 2 {} singleNodePopulation).2.GetNode 0 = some n'
        ∧ cross2 ![2, 0] (addedForce (planarNode 0 2 0) n') = 4
        ∧ 0 < cross2 ![2, 0] (addedForce (planarNode 0 2 0) n'))
    ∧ ∃ n', (SillyForce.AddForceContribution 2 ⟨-1⟩ singleNodePopulation).2.GetNode 0 = some n'
        ∧ cross2 ![2, 0] (addedForce (planarNode 0 2 0) n') = -4 := by
  have hs : (0 : ℚ) < ({} : SillyForce).mStrengthMultiplier := by norm_num
  have hd : singleNodePopulation.mrMesh.GetVectorFromAtoB
      singleNodePopulation.GetCentroidOfCellPopulation (planarNode 0 2 0).mLocation
        = ![2, 0] := by
    funext j
    fin_cases j <;>
      simp [singleNodePopulation, planarNode, plainVectorFromAtoB,
        AbstractCellPopulation.GetCentroidOfCellPopulation]
  refine ⟨rfl, rfl, hs, ?_, ?_⟩
  · obtain ⟨n', h1, h2, h3⟩ :=
      C3_added_force_counter_clockwise {} singleNodePopulation rfl 0 (planarNode 0 2 0) rfl
    rw [hd] at h2 h3
    refine ⟨n', h1, ?_, (h3 hs).2.mpr ?_⟩
    · rw [h2]; norm_num [dot2]
    · intro h
      have := congrFun h 0
      simp [zero_vector] at this
  · obtain ⟨n', h1, h2, -⟩ :=
      C3_added_force_counter_clockwise ⟨-1⟩ singleNodePopulation rfl 0 (planarNode 0 2 0) rfl
    rw [hd] at h2
    refine ⟨n', h1, ?_⟩
    rw [h2]; norm_num [dot2]

/-- C3, counterexample to strict positivity: a single node at `(2,0)` in a population whose
centroid is the mean of its node positions sits on the centroid; with strength `1.0 > 0` the
displacement and the added force are zero and the cross product is `0`, not positive. -/
theorem C3_cross_positive_counterexample :
    nodeOnCentroidPopulation.isVertexBased = true
    ∧ nodeOnCentroidPopulation.GetNode 0 = some (planarNode 0 2 0)
    ∧ (0 : ℚ) < ({} : SillyForce).mStrengthMultiplier
    ∧ ∃ n', (SillyForce.AddForceContribution 2 {} nodeOnCentroidPopulation).2.GetNode 0
          = some n'
        ∧ cross2 (nodeOnCentroidPopulation.mrMesh.GetVectorFromAtoB
            nodeOnCentroidPopulation.GetCentroidOfCellPopulation (planarNode 0 2 0).mLocation)
            (addedForce (planarNode 0 2 0) n') = 0
        ∧ ¬ 0 < cross2 (nodeOnCentroidPopulation.mrMesh.GetVectorFromAtoB
            nodeOnCentroidPopulation.GetCentroidOfCellPopulation (planarNode 0 2 0).mLocation)
            (addedForce (planarNode 0 2 0) n') := by
  have hd : nodeOnCentroidPopulation.mrMesh.GetVectorFromAtoB
      nodeOnCentroidPopulation.GetCentroidOfCellPopulation (planarNode 0 2 0).mLocation
        = zero_vector 2 := by
    funext j
    fin_cases j <;>
      simp [nodeOnCentroidPopulation, planarNode, plainVectorFromAtoB, meanCentroid,
        zero_vector, AbstractCellPopulation.GetCentroidOfCellPopulation]
  have hc : cross2 (zero_vector 2) (addedForce (planarNode 0 2 0)
      (SillyForce.nodeUpdate 2 {} nodeOnCentroidPopulation.GetCentroidOfCellPopulation
        nodeOnCentroidPopulation.mrMesh.GetVectorFromAtoB (planarNode 0 2 0))) = 0 := by
    simp [cross2, zero_vector]
  refine ⟨rfl, rfl, by norm_num, _,
    SillyForce.GetNode_after 2 {} nodeOnCentroidPopulation rfl 0 (planarNode 0 2 0) rfl, ?_, ?_⟩
  · rw [hd]; exact hc
  · rw [hd, hc]; exact lt_irrefl 0

/-- C4: in every dimension `AddForceContribution` raises the configuration-mismatch exception
exactly when the population is not vertex-based and returns normally exactly when it is; when
it raises, the population it leaves behind is the one it was given, so no node and no force
accumulator has changed. -/
theorem C4_exception_iff_not_vertex_based (DIM : Nat) (self : SillyForce)
    (pop : AbstractCellPopulation DIM) :
    ((SillyForce.AddForceContribution DIM self pop).1
        = Outcome.exception "SillyForce is to be used with a VertexBasedCellPopulation only"
      ↔ pop.isVertexBased = false)
    ∧ ((SillyForce.AddForceContribution DIM self pop).1 = Outcome.returned
      ↔ pop.isVertexBased = true)
    ∧ (pop.isVertexBased = false →
        (SillyForce.AddForceContribution DIM self pop).2 = pop
        ∧ ∀ i, (SillyForce.AddForceContribution DIM self pop).2.GetNode i = pop.GetNode i) := by
  cases hv : pop.isVertexBased with
  | false =>
    have h : SillyForce.AddForceContribution DIM self pop
        = (Outcome.exception "SillyForce is to be used with a VertexBasedCellPopulation only",
            pop) := by
      simp [SillyForce.AddForceContribution, hv]
    rw [h]
    simp
  | true =>
    rw [SillyForce.AddForceContribution_vertex DIM self pop hv]
    simp

/-- C4, instances: a population in three dimensions that is not vertex-based makes the call
raise and is left as it was; the vertex-based planar population makes it return. -/
theorem C4_exception_iff_not_vertex_based_witness :
    (spatialPopulation false).isVertexBased = false
    ∧ (SillyForce.AddForceContribution 3 {} (spatialPopulation false)).1
        = Outcome.exception "SillyForce is to be used with a VertexBasedCellPopulation only"
    ∧ (SillyForce.AddForceContribution 3 {} (spatialPopulation false)).2
        = spatialPopulation false
    ∧ (SillyForce.AddForceContribution 2 {} singleNodePopulation).1 = Outcome.returned :=
  ⟨rfl,
    (C4_exception_iff_not_vertex_based 3 {} (spatialPopulation false)).1.mpr rfl,
    ((C4_exception_iff_not_vertex_based 3 {} (spatialPopulation false)).2.2 rfl).1,
    (C4_exception_iff_not_vertex_based 2 {} singleNodePopulation).2.1.mpr rfl⟩

/-- C5 (as amended): in dimension 1 or 3, for every strength multiplier, a call of
`AddForceContribution` on a vertex-based population returns without raising and leaves the
population as it was: every node keeps its accumulated force and its position. -/
theorem C5_nonplanar_no_op (DIM : Nat) (hD : DIM = 1 ∨ DIM = 3) (self : SillyForce)
    (pop : AbstractCellPopulation DIM) (hv : pop.isVertexBased = true) :
    (SillyForce.AddForceContribution DIM self pop).1 = Outcome.returned
    ∧ (SillyForce.AddForceContribution DIM self pop).2 = pop
    ∧ ∀ i, (SillyForce.AddForceContribution DIM self pop).2.GetNode i = pop.GetNode i := by
  have hD2 : DIM ≠ 2 := by omega
  rw [SillyForce.AddForceContribution_nonplanar DIM hD2 self pop hv]
  exact ⟨rfl, rfl, fun _ => rfl⟩

/-- C5, instance: with strength `0.15` the vertex-based population in three dimensions is left
as it was, its first node still at `(1,2,3)` with accumulated force `(1,2,3)`. -/
theorem C5_nonplanar_no_op_witness :
    ((3 : Nat) = 1 ∨ (3 : Nat) = 3)
    ∧ (spatialPopulation true).isVertexBased = true
    ∧ (SillyForce.AddForceContribution 3 ⟨0.15⟩ (spatialPopulation true)).1 = Outcome.returned
    ∧ (SillyForce.AddForceContribution 3 ⟨0.15⟩ (spatialPopulation true)).2.GetNode 0
        = some (spatialNode 0 1 2 3) :=
  ⟨Or.inr rfl, rfl,
    (C5_nonplanar_no_op 3 (Or.inr rfl) ⟨0.15⟩ (spatialPopulation true) rfl).1,
    (C5_nonplanar_no_op 3 (Or.inr rfl) ⟨0.15⟩ (spatialPopulation true) rfl).2.2 0⟩

/-- C5, counterexample to "does not raise for all populations": in dimension 3 a population
that is not vertex-based makes the call raise the configuration-mismatch exception. -/
theorem C5_nonplanar_raises_counterexample :
    (SillyForce.AddForceContribution 3 {} (spatialPopulation false)).1
        = Outcome.exception "SillyForce is to be used with a VertexBasedCellPopulation only"
    ∧ (SillyForce.AddForceContribution 3 {} (spatialPopulation false)).1
        ≠ Outcome.returned := by
  have h : (SillyForce.AddForceContribution 3 {} (spatialPopulation false)).1
      = Outcome.exception "SillyForce is to be used with a VertexBasedCellPopulation only" := by
    simp [SillyForce.AddForceContribution, spatialPopulation]
  refine ⟨h, ?_⟩
  rw [h]
  exact fun hne => Outcome.noConfusion hne

/-! ## Claims about `SillySimulationModifier::UpdateAtEndOfTimeStep` -/

/-- C6: in dimension 2, an invocation of `UpdateAtEndOfTimeStep` with `now - lastFired >= 10.0`
sets `lastFired` to `now` and moves the first coordinate of every node to
`0.5 * (prior first coordinate + first coordinate of the population centroid)`, the centroid
being the one of the population as the invocation finds it. -/
theorem C6_firing_midpoint (self : SillySimulationModifier) (time_now : ℚ)
    (pop : AbstractCellPopulation 2) (h : time_now - self.mTimeLastSquashed ≥ 10.0) :
    (SillySimulationModifier.UpdateAtEndOfTimeStep 2 self time_now pop).1.mTimeLastSquashed
        = time_now
    ∧ (SillySimulationModifier.UpdateAtEndOfTimeStep 2 self time_now pop).2.GetNumNodes
        = pop.GetNumNodes
    ∧ ∀ (i : Nat) (n : Node 2), pop.GetNode i = some n →
        ∃ n', (SillySimulationModifier.UpdateAtEndOfTimeStep 2 self time_now pop).2.GetNode i
            = some n'
          ∧ n'.mLocation 0 = 0.5 * (n.mLocation 0 + pop.GetCentroidOfCellPopulation 0) := by
  refine ⟨?_, ?_, ?_⟩
  · rw [SillySimulationModifier.UpdateAtEndOfTimeStep_firing 2 self time_now pop h]
  · rw [SillySimulationModifier.UpdateAtEndOfTimeStep_firing 2 self time_now pop h]
    simp [AbstractCellPopulation.GetNumNodes, Mesh.GetNumNodes, withNodes]
  · intro i n hn
    exact ⟨_, SillySimulationModifier.GetNode_after_firing 2 self time_now pop h i n hn,
      (SillySimulationModifier.squash_planar _ n).1⟩

/-- C6, scenario: the square of four nodes centred at `(0,0)`, last squashed at `t = 0` and
invoked at `t = 10`: the node at `(1,0)` ends with first coordinate `0.5` and the timer
reads `10`. -/
theorem C6_firing_midpoint_witness :
    (10 : ℚ) - (⟨0⟩ : SillySimulationModifier).mTimeLastSquashed ≥ 10.0
    ∧ squarePopulation.GetCentroidOfCellPopulation = ![0, 0]
    ∧ squarePopulation.GetNode 0 = some (planarNode 0 1 0)
    ∧ (SillySimulationModifier.UpdateAtEndOfTimeStep 2 ⟨0⟩ 10
        squarePopulation).1.mTimeLastSquashed = 10
    ∧ ∃ n', (SillySimulationModifier.UpdateAtEndOfTimeStep 2 ⟨0⟩ 10
          squarePopulation).2.GetNode 0 = some n'
        ∧ n'.mLocation 0 = 0.5 := by
  have h : (10 : ℚ) - (⟨0⟩ : SillySimulationModifier).mTimeLastSquashed ≥ 10.0 := by norm_num
  have hc : squarePopulation.GetCentroidOfCellPopulation = ![0, 0] := by
    funext j
    fin_cases j <;>
      simp [squarePopulation, planarNode, meanCentroid,
        AbstractCellPopulation.GetCentroidOfCellPopulation]
  obtain ⟨h1, -, h3⟩ := C6_firing_midpoint ⟨0⟩ 10 squarePopulation h
  obtain ⟨n', hn1, hn2⟩ := h3 0 (planarNode 0 1 0) rfl
  refine ⟨h, hc, rfl, h1, n', hn1, ?_⟩
  rw [hn2, hc]
  simp [planarNode]

/-- C7: in every dimension, an invocation of `UpdateAtEndOfTimeStep` with
`now - lastFired < 10.0` changes nothing: the population (all node positions included) and the
stored `lastFired` are the same after it as before; a second invocation at the same instant
again changes nothing. -/
theorem C7_waiting_changes_nothing (DIM : Nat) (self : SillySimulationModifier) (time_now : ℚ)
    (pop : AbstractCellPopulation DIM) (h : time_now - self.mTimeLastSquashed < 10.0) :
    SillySimulationModifier.UpdateAtEndOfTimeStep DIM self time_now pop = (self, pop)
    ∧ SillySimulationModifier.UpdateAtEndOfTimeStep DIM
        (SillySimulationModifier.UpdateAtEndOfTimeStep DIM self time_now pop).1 time_now
        (SillySimulationModifier.UpdateAtEndOfTimeStep DIM self time_now pop).2 = (self, pop) := by
  have h1 := SillySimulationModifier.UpdateAtEndOfTimeStep_waiting DIM self time_now pop h
  refine ⟨h1, ?_⟩
  rw [h1]
  exact h1

/-- C7, instance: the square population last squashed at `t = 0` and invoked at `t = 9.99`
keeps its timer at `0` and its node at `(1,0)`. -/
theorem C7_waiting_changes_nothing_witness :
    (9.99 : ℚ) - (⟨0⟩ : SillySimulationModifier).mTimeLastSquashed < 10.0
    ∧ (SillySimulationModifier.UpdateAtEndOfTimeStep 2 ⟨0⟩ 9.99
        squarePopulation).1.mTimeLastSquashed = 0
    ∧ (SillySimulationModifier.UpdateAtEndOfTimeStep 2 ⟨0⟩ 9.99 squarePopulation).2.GetNode 0
        = some (planarNode 0 1 0) := by
  have h : (9.99 : ℚ) - (⟨0⟩ : SillySimulationModifier).mTimeLastSquashed < 10.0 := by norm_num
  have h1 := (C7_waiting_changes_nothing 2 ⟨0⟩ 9.99 squarePopulation h).1
  refine ⟨h, ?_, ?_⟩
  · rw [h1]
  · rw [h1]; rfl

/-- C8: in dimension 2, a firing invocation of `UpdateAtEndOfTimeStep` changes only the first
coordinate of each node: the number of nodes, and the second coordinate, the accumulated force
and the index of every node are the same after the call as before it. -/
theorem C8_firing_keeps_other_coordinates (self : SillySimulationModifier) (time_now : ℚ)
    (pop : AbstractCellPopulation 2) (h : time_now - self.mTimeLastSquashed ≥ 10.0) :
    (SillySimulationModifier.UpdateAtEndOfTimeStep 2 self time_now pop).2.GetNumNodes
        = pop.GetNumNodes
    ∧ ∀ (i : Nat) (n : Node 2), pop.GetNode i = some n →
        ∃ n', (SillySimulationModifier.UpdateAtEndOfTimeStep 2 self time_now pop).2.GetNode i
            = some n'
          ∧ n'.mLocation 1 = n.mLocation 1
          ∧ n'.mAppliedForce = n.mAppliedForce
          ∧ n'.mIndex = n.mIndex := by
  refine ⟨?_, ?_⟩
  · rw [SillySimulationModifier.UpdateAtEndOfTimeStep_firing 2 self time_now pop h]
    simp [AbstractCellPopulation.GetNumNodes, Mesh.GetNumNodes, withNodes]
  · intro i n hn
    exact ⟨_, SillySimulationModifier.GetNode_after_firing 2 self time_now pop h i n hn,
      (SillySimulationModifier.squash_planar _ n).2⟩

/-- C8, instance: in the square population fired at `t = 10` the node at `(0,1)` keeps its
second coordinate `1` and its empty force accumulator. -/
theorem C8_firing_keeps_other_coordinates_witness :
    (10 : ℚ) - (⟨0⟩ : SillySimulationModifier).mTimeLastSquashed ≥ 10.0
    ∧ squarePopulation.GetNode 1 = some (planarNode 1 0 1)
    ∧ ∃ n', (SillySimulationModifier.UpdateAtEndOfTimeStep 2 ⟨0⟩ 10
          squarePopulation).2.GetNode 1 = some n'
        ∧ n'.mLocation 1 = 1 ∧ n'.mAppliedForce = zero_vector 2 := by
  have h : (10 : ℚ) - (⟨0⟩ : SillySimulationModifier).mTimeLastSquashed ≥ 10.0 := by norm_num
  obtain ⟨n', hn1, hn2, hn3, -⟩ :=
    (C8_firing_keeps_other_coordinates ⟨0⟩ 10 squarePopulation h).2 1 (planarNode 1 0 1) rfl
  refine ⟨h, rfl, n', hn1, ?_, ?_⟩
  · rw [hn2]; simp [planarNode]
  · rw [hn3]; rfl

/-- C9: in dimension 1 or 3, for every population and every value of `now` and `lastFired`,
`UpdateAtEndOfTimeStep` leaves the population as it was: every node is found unchanged, with
every coordinate of its position. -/
theorem C9_nonplanar_positions_unchanged (DIM : Nat) (hD : DIM = 1 ∨ DIM = 3)
    (self : SillySimulationModifier) (time_now : ℚ) (pop : AbstractCellPopulation DIM) :
    (SillySimulationModifier.UpdateAtEndOfTimeStep DIM self time_now pop).2 = pop
    ∧ ∀ (i : Nat) (n : Node DIM), pop.GetNode i = some n →
        ∃ n', (SillySimulationModifier.UpdateAtEndOfTimeStep DIM self time_now pop).2.GetNode i
            = some n'
          ∧ ∀ j, n'.mLocation j = n.mLocation j := by
  have hD2 : DIM ≠ 2 := by omega
  have hp := SillySimulationModifier.UpdateAtEndOfTimeStep_nonplanar DIM hD2 self time_now pop
  refine ⟨hp, ?_⟩
  intro i n hn
  rw [hp]
  exact ⟨n, hn, fun _ => rfl⟩

/-- C9, instance: the population in three dimensions invoked at `t = 10` with the timer at `0`
(elapsed at least `10.0`) still has its first node at `(1,2,3)`. -/
theorem C9_nonplanar_positions_unchanged_witness :
    ((3 : Nat) = 1 ∨ (3 : Nat) = 3)
    ∧ (10 : ℚ) - (⟨0⟩ : SillySimulationModifier).mTimeLastSquashed ≥ 10.0
    ∧ (SillySimulationModifier.UpdateAtEndOfTimeStep 3 ⟨0⟩ 10 (spatialPopulation true)).2.GetNode 0
        = some (spatialNode 0 1 2 3) := by
  refine ⟨Or.inr rfl, by norm_num, ?_⟩
  rw [(C9_nonplanar_positions_unchanged 3 (Or.inr rfl) ⟨0⟩ 10 (spatialPopulation true)).1]
  rfl

/-- C10 (as amended): over any sequence of invocations of `UpdateAtEndOfTimeStep`, whatever
population each one is handed, the stored `lastFired` never decreases from one invocation to
the next. After an invocation `lastFired` is at most the clock reading of that invocation
exactly when it was at most that reading before the invocation; so it is at most the clock
reading after every invocation of a run whose clock readings do not decrease and whose first
reading is not before the initial `lastFired`. -/
theorem C10_lastFired_monotone_and_bounded (DIM : Nat) (self : SillySimulationModifier)
    (calls : List (ℚ × AbstractCellPopulation DIM)) (time_now : ℚ)
    (pop : AbstractCellPopulation DIM) :
    List.Chain (fun a b => a ≤ b) self.mTimeLastSquashed
        ((SillySimulationModifier.invokeAll DIM self calls).map
          (fun after => after.mTimeLastSquashed))
    ∧ ((SillySimulationModifier.UpdateAtEndOfTimeStep DIM self time_now
          pop).1.mTimeLastSquashed ≤ time_now
        ↔ self.mTimeLastSquashed ≤ time_now)
    ∧ (List.Chain (fun a b => a ≤ b) self.mTimeLastSquashed (calls.map (fun call => call.1)) →
        List.Forall₂ (fun call after => after.mTimeLastSquashed ≤ call.1) calls
          (SillySimulationModifier.invokeAll DIM self calls)) := by
  refine ⟨?_, ?_, ?_⟩
  · induction calls generalizing self with
    | nil => exact List.Chain.nil
    | cons call calls ih =>
      obtain ⟨t, p⟩ := call
      exact List.Chain.cons (SillySimulationModifier.lastSquashed_le_after DIM self t p)
        (ih (SillySimulationModifier.UpdateAtEndOfTimeStep DIM self t p).1)
  · constructor
    · intro hafter
      exact le_trans (SillySimulationModifier.lastSquashed_le_after DIM self time_now pop)
        hafter
    · exact SillySimulationModifier.lastSquashed_after_le_now DIM self time_now pop
  · induction calls generalizing self with
    | nil => exact fun _ => List.Forall₂.nil
    | cons call calls ih =>
      obtain ⟨t, p⟩ := call
      intro hclock
      simp only [List.map_cons, List.chain_cons] at hclock
      obtain ⟨h0, hrest⟩ := hclock
      have hle := SillySimulationModifier.lastSquashed_after_le_now DIM self t p h0
      refine List.Forall₂.cons hle
        (ih (SillySimulationModifier.UpdateAtEndOfTimeStep DIM self t p).1 ?_)
      exact List.Chain.imp' (fun _ _ hab => hab) (fun _ hx => le_trans hle hx) hrest

/-- C10, instance: from `lastFired = 0`, invoked at `t = 5, 10, 12, 25` on the square
population, the timer reads `0, 10, 10, 25` after the four invocations: it never decreases and
never exceeds the clock reading. -/
theorem C10_lastFired_monotone_and_bounded_witness :
    List.Chain (fun a b => a ≤ b) (⟨0⟩ : SillySimulationModifier).mTimeLastSquashed
        ([((5 : ℚ), squarePopulation), (10, squarePopulation), (12, squarePopulation),
          (25, squarePopulation)].map (fun call => call.1))
    ∧ (SillySimulationModifier.invokeAll 2 ⟨0⟩
          [((5 : ℚ), squarePopulation), (10, squarePopulation), (12, squarePopulation),
            (25, squarePopulation)]).map (fun after => after.mTimeLastSquashed)
        = [0, 10, 10, 25]
    ∧ List.Forall₂ (fun call after => after.mTimeLastSquashed ≤ call.1)
        [((5 : ℚ), squarePopulation), (10, squarePopulation), (12, squarePopulation),
          (25, squarePopulation)]
        (SillySimulationModifier.invokeAll 2 ⟨0⟩
          [((5 : ℚ), squarePopulation), (10, squarePopulation), (12, squarePopulation),
            (25, squarePopulation)]) := by
  have hclock : List.Chain (fun a b => a ≤ b) (⟨0⟩ : SillySimulationModifier).mTimeLastSquashed
      ([((5 : ℚ), squarePopulation), (10, squarePopulation), (12, squarePopulation),
        (25, squarePopulation)].map (fun call => call.1)) := by
    simp only [List.map_cons, List.map_nil, List.chain_cons]
    norm_num
  refine ⟨hclock, ?_,
    (C10_lastFired_monotone_and_bounded 2 ⟨0⟩ _ 0 squarePopulation).2.2 hclock⟩
  simp only [SillySimulationModifier.invokeAll, List.map_cons, List.map_nil,
    SillySimulationModifier.lastSquashed_after]
  norm_num

/-- C10, counterexample to the bound after every invocation: a modifier whose timer reads `20`,
invoked when the clock reads `3`, does not fire (`3 - 20 < 10.0`) and keeps `lastFired = 20`,
which is above the clock reading `3` of that invocation. -/
theorem C10_lastFired_above_clock_counterexample :
    (SillySimulationModifier.UpdateAtEndOfTimeStep 2 ⟨20⟩ 3
        squarePopulation).1.mTimeLastSquashed = 20
    ∧ ¬ (SillySimulationModifier.UpdateAtEndOfTimeStep 2 ⟨20⟩ 3
        squarePopulation).1.mTimeLastSquashed ≤ 3 := by
  have h : (SillySimulationModifier.UpdateAtEndOfTimeStep 2 ⟨20⟩ 3
      squarePopulation).1.mTimeLastSquashed = 20 := by
    rw [SillySimulationModifier.lastSquashed_after]
    norm_num
  refine ⟨h, ?_⟩
  rw [h]
  norm_num

/-! ## The firing schedule -/

/-- An invocation changes the timer exactly when its clock reading is at least `10.0` after
the timer. -/
theorem SillySimulationModifier.timer_changes_iff (DIM : Nat) (self : SillySimulationModifier)
    (time_now : ℚ) (pop : AbstractCellPopulation DIM) :
    (SillySimulationModifier.UpdateAtEndOfTimeStep DIM self time_now pop).1.mTimeLastSquashed
        ≠ self.mTimeLastSquashed
      ↔ time_now - self.mTimeLastSquashed ≥ 10.0 := by
  rw [SillySimulationModifier.lastSquashed_after]
  split
  · next h =>
    constructor
    · intro _; exact h
    · intro _ heq
      rw [heq] at h
      norm_num at h
  · next h =>
    constructor
    · intro hne; exact absurd rfl hne
    · intro h'; exact absurd h' h

theorem SillySimulationModifier.firingTimes_append (DIM : Nat) (self : SillySimulationModifier)
    (l₁ l₂ : List (ℚ × AbstractCellPopulation DIM)) :
    SillySimulationModifier.firingTimes DIM self (l₁ ++ l₂)
      = SillySimulationModifier.firingTimes DIM self l₁
        ++ SillySimulationModifier.firingTimes DIM
            (SillySimulationModifier.stateAfter DIM self l₁) l₂ := by
  induction l₁ generalizing self with
  | nil => rfl
  | cons c l ih =>
    obtain ⟨t, p⟩ := c
    simp only [List.cons_append, SillySimulationModifier.firingTimes,
      SillySimulationModifier.stateAfter, List.append_eq]
    split
    · rw [ih]; rfl
    · rw [ih]

/-- The timer after a run is the reading of the most recent firing, or the initial timer if no
invocation fired. -/
theorem SillySimulationModifier.stateAfter_timer (DIM : Nat) (self : SillySimulationModifier)
    (calls : List (ℚ × AbstractCellPopulation DIM)) :
    (SillySimulationModifier.stateAfter DIM self calls).mTimeLastSquashed
      = ((SillySimulationModifier.firingTimes DIM self calls).getLast?).getD
          self.mTimeLastSquashed := by
  induction calls generalizing self with
  | nil => rfl
  | cons c l ih =>
    obtain ⟨t, p⟩ := c
    simp only [SillySimulationModifier.firingTimes, SillySimulationModifier.stateAfter]
    rw [ih]
    by_cases hch : (SillySimulationModifier.UpdateAtEndOfTimeStep DIM self t
        p).1.mTimeLastSquashed ≠ self.mTimeLastSquashed
    · rw [if_pos hch]
      have ht : (SillySimulationModifier.UpdateAtEndOfTimeStep DIM self t
          p).1.mTimeLastSquashed = t := by
        rw [SillySimulationModifier.lastSquashed_after,
          if_pos ((SillySimulationModifier.timer_changes_iff DIM self t p).mp hch)]
      rw [ht]
      cases hft : SillySimulationModifier.firingTimes DIM
          (SillySimulationModifier.UpdateAtEndOfTimeStep DIM self t p).1 l with
      | nil => simp
      | cons a as =>
        simp only [List.getLast?_cons_cons]
        rw [List.getLast?_eq_getLast _ (List.cons_ne_nil a as)]
        rfl
    · rw [if_neg hch]
      rw [not_not.mp hch]

/-- What a single invocation contributes to the list of firing times. -/
theorem SillySimulationModifier.firingTimes_single (DIM : Nat) (self : SillySimulationModifier)
    (t : ℚ) (p : AbstractCellPopulation DIM) :
    SillySimulationModifier.firingTimes DIM self [(t, p)]
      = if t - self.mTimeLastSquashed ≥ 10.0 then [t] else [] := by
  simp only [SillySimulationModifier.firingTimes]
  by_cases h : t - self.mTimeLastSquashed ≥ 10.0
  · rw [if_pos h, if_pos ((SillySimulationModifier.timer_changes_iff DIM self t p).mpr h)]
  · rw [if_neg h, if_neg (fun hc => h ((SillySimulationModifier.timer_changes_iff DIM self t
      p).mp hc))]

/-- Each firing time is at least `10.0` after the previous one, the first at least `10.0` after
the initial timer. -/
theorem SillySimulationModifier.firingTimes_chain (DIM : Nat) (self : SillySimulationModifier)
    (calls : List (ℚ × AbstractCellPopulation DIM)) :
    List.Chain (fun a b => b - a ≥ 10.0) self.mTimeLastSquashed
      (SillySimulationModifier.firingTimes DIM self calls) := by
  induction calls generalizing self with
  | nil => exact List.Chain.nil
  | cons c l ih =>
    obtain ⟨t, p⟩ := c
    simp only [SillySimulationModifier.firingTimes]
    by_cases hch : (SillySimulationModifier.UpdateAtEndOfTimeStep DIM self t
        p).1.mTimeLastSquashed ≠ self.mTimeLastSquashed
    · rw [if_pos hch]
      have hg := (SillySimulationModifier.timer_changes_iff DIM self t p).mp hch
      have ht : (SillySimulationModifier.UpdateAtEndOfTimeStep DIM self t
          p).1.mTimeLastSquashed = t := by
        rw [SillySimulationModifier.lastSquashed_after, if_pos hg]
      have := ih (SillySimulationModifier.UpdateAtEndOfTimeStep DIM self t p).1
      rw [ht] at this
      exact List.Chain.cons hg this
    · rw [if_neg hch]
      have := ih (SillySimulationModifier.UpdateAtEndOfTimeStep DIM self t p).1
      rw [not_not.mp hch] at this
      exact this

/-- In a chain of steps of at least `10.0`, every element is at least `10.0` above the start. -/
theorem chain_gap_lower_bound (a : ℚ) (l : List ℚ)
    (h : List.Chain (fun a b => b - a ≥ 10.0) a l) : ∀ t ∈ l, a + 10.0 ≤ t := by
  induction l generalizing a with
  | nil => intro t ht; cases ht
  | cons b l ih =>
    rw [List.chain_cons] at h
    obtain ⟨hab, hrest⟩ := h
    intro t ht
    rcases List.mem_cons.mp ht with h1 | h1
    · rw [h1]; linarith
    · have := ih b hrest t h1
      norm_num at hab this ⊢
      linarith

/-- A stretch of invocations that all come less than `10.0` after the timer neither fires nor
changes the modifier. -/
theorem SillySimulationModifier.firingTimes_quiet (DIM : Nat) (self : SillySimulationModifier)
    (calls : List (ℚ × AbstractCellPopulation DIM))
    (h : ∀ c ∈ calls, c.1 - self.mTimeLastSquashed < 10.0) :
    SillySimulationModifier.firingTimes DIM self calls = []
    ∧ SillySimulationModifier.stateAfter DIM self calls = self := by
  induction calls with
  | nil => exact ⟨rfl, rfl⟩
  | cons c l ih =>
    obtain ⟨t, p⟩ := c
    have ht : t - self.mTimeLastSquashed < 10.0 := h (t, p) (List.mem_cons_self _ _)
    have hw := SillySimulationModifier.UpdateAtEndOfTimeStep_waiting DIM self t p ht
    obtain ⟨ih1, ih2⟩ := ih (fun c hc => h c (List.mem_cons_of_mem _ hc))
    simp only [SillySimulationModifier.firingTimes, SillySimulationModifier.stateAfter, hw,
      ne_eq, not_true_eq_false, if_false]
    exact ⟨ih1, ih2⟩

/-- C11: for every sequence of invocations of `UpdateAtEndOfTimeStep` (non-decreasing or not),
starting with `lastFired = t0`: the next invocation fires exactly when its clock reading is at
least `10.0` after the most recent firing time, or after `t0` if none has fired; each firing is
at least `10.0` after the one before it, the first at least `10.0` after `t0`; and no firing
happens before `t0 + 10.0`. -/
theorem C11_firing_schedule (DIM : Nat) (self : SillySimulationModifier)
    (calls : List (ℚ × AbstractCellPopulation DIM)) (t : ℚ) (p : AbstractCellPopulation DIM) :
    SillySimulationModifier.firingTimes DIM self (calls ++ [(t, p)])
        = SillySimulationModifier.firingTimes DIM self calls
          ++ (if t - ((SillySimulationModifier.firingTimes DIM self calls).getLast?).getD
                self.mTimeLastSquashed ≥ 10.0 then [t] else [])
    ∧ List.Chain (fun a b => b - a ≥ 10.0) self.mTimeLastSquashed
        (SillySimulationModifier.firingTimes DIM self calls)
    ∧ ∀ t' ∈ SillySimulationModifier.firingTimes DIM self calls,
        self.mTimeLastSquashed + 10.0 ≤ t' := by
  refine ⟨?_, SillySimulationModifier.firingTimes_chain DIM self calls,
    chain_gap_lower_bound _ _ (SillySimulationModifier.firingTimes_chain DIM self calls)⟩
  rw [SillySimulationModifier.firingTimes_append, SillySimulationModifier.firingTimes_single,
    SillySimulationModifier.stateAfter_timer]

/-- Splitting a run of consecutive step numbers at one of them. -/
theorem range_split_at (a n m : Nat) :
    List.range' a (m + 1 + n) = List.range' a n ++ (a + n) :: List.range' (a + n + 1) m :=
  (List.range'_append_1 a n (m + 1)).symm

/-- A stretch of quiet time steps followed by a step that reaches `10.0` after the timer: the
modifier fires at that step and at none before it. -/
theorem SillySimulationModifier.firingTimes_stretch (DIM : Nat)
    (self : SillySimulationModifier) (dt : ℚ) (pop : AbstractCellPopulation DIM) (a n : Nat)
    (rest : List (ℚ × AbstractCellPopulation DIM))
    (hq : ∀ k, a ≤ k → k < a + n →
      ((k + 1 : Nat) : ℚ) * dt - self.mTimeLastSquashed < 10.0)
    (hf : ((a + n + 1 : Nat) : ℚ) * dt - self.mTimeLastSquashed ≥ 10.0) :
    SillySimulationModifier.firingTimes DIM self
        ((List.range' a n).map (fun k => (((k + 1 : Nat) : ℚ) * dt, pop))
          ++ (((a + n + 1 : Nat) : ℚ) * dt, pop) :: rest)
      = ((a + n + 1 : Nat) : ℚ) * dt
        :: SillySimulationModifier.firingTimes DIM ⟨((a + n + 1 : Nat) : ℚ) * dt⟩ rest := by
  have hquiet := SillySimulationModifier.firingTimes_quiet DIM self
    ((List.range' a n).map (fun k => (((k + 1 : Nat) : ℚ) * dt, pop))) (by
      intro c hc
      obtain ⟨k, hk, rfl⟩ := List.mem_map.mp hc
      rw [List.mem_range'_1] at hk
      exact hq k hk.1 hk.2)
  rw [SillySimulationModifier.firingTimes_append, hquiet.1, hquiet.2, List.nil_append]
  simp only [SillySimulationModifier.firingTimes]
  rw [if_pos ((SillySimulationModifier.timer_changes_iff DIM self _ pop).mpr hf),
    SillySimulationModifier.UpdateAtEndOfTimeStep_firing DIM self _ pop hf]

/-- C11, scenario of `Test06CustomSimulationModifier`: with time step `0.01`, invoked after each
of the 4990 steps up to `t = 49.9` from `lastFired = 0`, the modifier fires exactly at
`t = 10, 20, 30, 40`; consecutive firings are `10.0` apart and none is before `10.0`. -/
theorem C11_firing_schedule_witness :
    SillySimulationModifier.firingTimes 2 ⟨0⟩ (steppedCalls 0.01 4990 squarePopulation)
        = [10, 20, 30, 40]
    ∧ List.Chain (fun a b => b - a ≥ 10.0) (0 : ℚ)
        (SillySimulationModifier.firingTimes 2 ⟨0⟩ (steppedCalls 0.01 4990 squarePopulation))
    ∧ ∀ t' ∈ SillySimulationModifier.firingTimes 2 ⟨0⟩
        (steppedCalls 0.01 4990 squarePopulation), (0 : ℚ) + 10.0 ≤ t' := by
  refine ⟨?_, (C11_firing_schedule 2 ⟨0⟩ (steppedCalls 0.01 4990 squarePopulation) 0
      squarePopulation).2⟩
  have hsplit : List.range 4990
      = List.range' 0 999 ++ 999 :: (List.range' 1000 999 ++ 1999 :: (List.range' 2000 999
        ++ 2999 :: (List.range' 3000 999 ++ 3999 :: List.range' 4000 990))) := by
    rw [List.range_eq_range']
    rw [show List.range' 0 4990 = List.range' 0 999 ++ 999 :: List.range' 1000 3990 from
      range_split_at 0 999 3990]
    rw [show List.range' 1000 3990 = List.range' 1000 999 ++ 1999 :: List.range' 2000 2990 from
      range_split_at 1000 999 2990]
    rw [show List.range' 2000 2990 = List.range' 2000 999 ++ 2999 :: List.range' 3000 1990 from
      range_split_at 2000 999 1990]
    rw [show List.range' 3000 1990 = List.range' 3000 999 ++ 3999 :: List.range' 4000 990 from
      range_split_at 3000 999 990]
  unfold steppedCalls
  rw [hsplit]
  simp only [List.map_append, List.map_cons]
  rw [SillySimulationModifier.firingTimes_stretch 2 ⟨0⟩ 0.01 squarePopulation 0 999 _
      (by intro k _ hk
          have : (k : ℚ) < 999 := by exact_mod_cast hk
          push_cast; norm_num; linarith)
      (by norm_num),
    SillySimulationModifier.firingTimes_stretch 2 _ 0.01 squarePopulation 1000 999 _
      (by intro k _ hk
          have : (k : ℚ) < 1999 := by exact_mod_cast hk
          push_cast; norm_num; linarith)
      (by norm_num),
    SillySimulationModifier.firingTimes_stretch 2 _ 0.01 squarePopulation 2000 999 _
      (by intro k _ hk
          have : (k : ℚ) < 2999 := by exact_mod_cast hk
          push_cast; norm_num; linarith)
      (by norm_num),
    SillySimulationModifier.firingTimes_stretch 2 _ 0.01 squarePopulation 3000 999 _
      (by intro k _ hk
          have : (k : ℚ) < 3999 := by exact_mod_cast hk
          push_cast; norm_num; linarith)
      (by norm_num)]
  rw [(SillySimulationModifier.firingTimes_quiet 2 _ _ (by
      intro c hc
      obtain ⟨k, hk, rfl⟩ := List.mem_map.mp hc
      rw [List.mem_range'_1] at hk
      have : (k : ℚ) < 4990 := by exact_mod_cast hk.2
      push_cast; norm_num; linarith)).1]
  norm_num

/-! ## Further claims about SillyForce -/

/-- The force update keeps the position of a node, in every dimension. -/
theorem SillyForce.nodeUpdate_location (DIM : Nat) (self : SillyForce) (centroid : c_vector DIM)
    (op : c_vector DIM → c_vector DIM → c_vector DIM) (n : Node DIM) :
    (SillyForce.nodeUpdate DIM self centroid op n).mLocation = n.mLocation := rfl

/-- A call of `AddForceContribution` keeps the positions of all nodes, in order. -/
theorem SillyForce.locations_after (DIM : Nat) (self : SillyForce)
    (pop : AbstractCellPopulation DIM) :
    (SillyForce.AddForceContribution DIM self pop).2.mrMesh.mNodes.map (fun n => n.mLocation)
      = pop.mrMesh.mNodes.map (fun n => n.mLocation) := by
  cases hv : pop.isVertexBased with
  | false => simp [SillyForce.AddForceContribution, hv]
  | true =>
    rw [SillyForce.AddForceContribution_vertex DIM self pop hv]
    simp only [withNodes, List.map_map]
    rfl

/-- A call of `AddForceContribution` keeps everything of the population except the nodes. -/
theorem SillyForce.frame_after (DIM : Nat) (self : SillyForce)
    (pop : AbstractCellPopulation DIM) :
    (SillyForce.AddForceContribution DIM self pop).2.isVertexBased = pop.isVertexBased
    ∧ (SillyForce.AddForceContribution DIM self pop).2.centroidOf = pop.centroidOf
    ∧ (SillyForce.AddForceContribution DIM self pop).2.mrMesh.GetVectorFromAtoB
        = pop.mrMesh.GetVectorFromAtoB := by
  cases hv : pop.isVertexBased with
  | false => simp [SillyForce.AddForceContribution, hv]
  | true =>
    rw [SillyForce.AddForceContribution_vertex DIM self pop hv]
    exact ⟨hv, rfl, rfl⟩

/-- With a centroid that reads positions only, a call of `AddForceContribution` keeps the
centroid. -/
theorem SillyForce.centroid_after (DIM : Nat) (self : SillyForce)
    (pop : AbstractCellPopulation DIM) (hc : CentroidOfPositions pop) :
    (SillyForce.AddForceContribution DIM self pop).2.GetCentroidOfCellPopulation
      = pop.GetCentroidOfCellPopulation := by
  unfold AbstractCellPopulation.GetCentroidOfCellPopulation
  rw [(SillyForce.frame_after DIM self pop).2.1]
  exact hc _ _ (SillyForce.locations_after DIM self pop)

/-- On a vertex-based population the call returns. -/
theorem SillyForce.returns_of_vertex (DIM : Nat) (self : SillyForce)
    (pop : AbstractCellPopulation DIM) (hv : pop.isVertexBased = true) :
    (SillyForce.AddForceContribution DIM self pop).1 = Outcome.returned := by
  rw [SillyForce.AddForceContribution_vertex DIM self pop hv]

/-- C12: `AddForceContribution` accumulates. In dimension 2, on a vertex-based population whose
centroid is an aggregate of the node positions, two calls in a row, with nothing resetting the
accumulators or moving nodes in between, both return and leave each node's accumulated force
at its initial value plus exactly twice the single-call contribution `s * (-d.y, d.x)`. -/
theorem C12_accumulates_not_assigns (self : SillyForce) (pop : AbstractCellPopulation 2)
    (hv : pop.isVertexBased = true) (hc : CentroidOfPositions pop) (i : Nat) (n : Node 2)
    (hn : pop.GetNode i = some n) :
    (SillyForce.AddForceContribution 2 self pop).1 = Outcome.returned
    ∧ (SillyForce.AddForceContribution 2 self
        (SillyForce.AddForceContribution 2 self pop).2).1 = Outcome.returned
    ∧ ∃ n'', (SillyForce.AddForceContribution 2 self
          (SillyForce.AddForceContribution 2 self pop).2).2.GetNode i = some n''
        ∧ n''.mAppliedForce 0 = n.mAppliedForce 0 + 2 * (self.mStrengthMultiplier *
            (-(pop.mrMesh.GetVectorFromAtoB pop.GetCentroidOfCellPopulation n.mLocation 1)))
        ∧ n''.mAppliedForce 1 = n.mAppliedForce 1 + 2 * (self.mStrengthMultiplier *
            (pop.mrMesh.GetVectorFromAtoB pop.GetCentroidOfCellPopulation n.mLocation 0)) := by
  obtain ⟨hv1, -, hop1⟩ := SillyForce.frame_after 2 self pop
  rw [hv] at hv1
  have hc1 := SillyForce.centroid_after 2 self pop hc
  have hn1 := SillyForce.GetNode_after 2 self pop hv i n hn
  have hn2 := SillyForce.GetNode_after 2 self _ hv1 i _ hn1
  rw [hc1, hop1] at hn2
  refine ⟨(SillyForce.returns_of_vertex 2 self pop hv), (SillyForce.returns_of_vertex 2 self _ hv1), _, hn2, ?_, ?_⟩
  · obtain ⟨-, -, h0, -⟩ := SillyForce.nodeUpdate_planar self pop.GetCentroidOfCellPopulation
      pop.mrMesh.GetVectorFromAtoB n
    obtain ⟨-, -, k0, -⟩ := SillyForce.nodeUpdate_planar self pop.GetCentroidOfCellPopulation
      pop.mrMesh.GetVectorFromAtoB (SillyForce.nodeUpdate 2 self
        pop.GetCentroidOfCellPopulation pop.mrMesh.GetVectorFromAtoB n)
    rw [k0, h0, SillyForce.nodeUpdate_location]
    ring
  · obtain ⟨-, -, -, h1⟩ := SillyForce.nodeUpdate_planar self pop.GetCentroidOfCellPopulation
      pop.mrMesh.GetVectorFromAtoB n
    obtain ⟨-, -, -, k1⟩ := SillyForce.nodeUpdate_planar self pop.GetCentroidOfCellPopulation
      pop.mrMesh.GetVectorFromAtoB (SillyForce.nodeUpdate 2 self
        pop.GetCentroidOfCellPopulation pop.mrMesh.GetVectorFromAtoB n)
    rw [k1, h1, SillyForce.nodeUpdate_location]
    ring

/-- The arithmetic mean of the node positions reads positions only. -/
theorem meanCentroid_of_positions {DIM : Nat} (p : AbstractCellPopulation DIM)
    (hmean : p.centroidOf = meanCentroid) : CentroidOfPositions p := by
  intro ns ns' h
  rw [hmean]
  funext j
  have hsum : ns.map (fun n => n.mLocation j) = ns'.map (fun n => n.mLocation j) := by
    have := congrArg (List.map (fun v : c_vector DIM => v j)) h
    simpa [List.map_map] using this
  have hlen : ns.length = ns'.length := by
    have := congrArg List.length h
    simpa using this
  simp only [meanCentroid, hsum, hlen]

/-- C12, instance: on the square population with strength `0.15`, the node at `(1,0)`, whose
displacement from the centroid `(0,0)` is `(1,0)`, has accumulated `(0, 0.3)` after two calls:
twice the single contribution `(0, 0.15)`. -/
theorem C12_accumulates_not_assigns_witness :
    squarePopulation.isVertexBased = true
    ∧ CentroidOfPositions squarePopulation
    ∧ squarePopulation.GetNode 0 = some (planarNode 0 1 0)
    ∧ ∃ n'', (SillyForce.AddForceContribution 2 ⟨0.15⟩
          (SillyForce.AddForceContribution 2 ⟨0.15⟩ squarePopulation).2).2.GetNode 0 = some n''
        ∧ n''.mAppliedForce 0 = 0 ∧ n''.mAppliedForce 1 = 0.3 := by
  have hc : CentroidOfPositions squarePopulation := meanCentroid_of_positions _ rfl
  obtain ⟨-, -, n'', h1, h2, h3⟩ :=
    C12_accumulates_not_assigns ⟨0.15⟩ squarePopulation rfl hc 0 (planarNode 0 1 0) rfl
  have hd : squarePopulation.mrMesh.GetVectorFromAtoB
      squarePopulation.GetCentroidOfCellPopulation (planarNode 0 1 0).mLocation = ![1, 0] := by
    funext j
    fin_cases j <;>
      simp [squarePopulation, planarNode, plainVectorFromAtoB, meanCentroid,
        AbstractCellPopulation.GetCentroidOfCellPopulation]
  rw [hd] at h2 h3
  refine ⟨rfl, hc, rfl, n'', h1, ?_, ?_⟩
  · rw [h2]; simp [planarNode, zero_vector]
  · rw [h3]; simp [planarNode, zero_vector]; norm_num

/-- C13: in every dimension and for every population, `AddForceContribution` writes no node
position: the number of nodes, the position and index of every node, the displacement
operator and the kind of the population are the same after the call as before it, and so is
the population centroid whenever it is an aggregate of the node positions; only the accumulated
forces may differ. The force object itself is passed by value: the body of the method assigns
none of its members, so its strength multiplier is the same after the call. -/
theorem C13_positions_untouched (DIM : Nat) (self : SillyForce)
    (pop : AbstractCellPopulation DIM) :
    (SillyForce.AddForceContribution DIM self pop).2.GetNumNodes = pop.GetNumNodes
    ∧ (SillyForce.AddForceContribution DIM self pop).2.mrMesh.mNodes.map (fun n => n.mLocation)
        = pop.mrMesh.mNodes.map (fun n => n.mLocation)
    ∧ (∀ (i : Nat) (n : Node DIM), pop.GetNode i = some n →
        ∃ n', (SillyForce.AddForceContribution DIM self pop).2.GetNode i = some n'
          ∧ n'.mLocation = n.mLocation ∧ n'.mIndex = n.mIndex)
    ∧ (CentroidOfPositions pop →
        (SillyForce.AddForceContribution DIM self pop).2.GetCentroidOfCellPopulation
          = pop.GetCentroidOfCellPopulation)
    ∧ (SillyForce.AddForceContribution DIM self pop).2.mrMesh.GetVectorFromAtoB
        = pop.mrMesh.GetVectorFromAtoB
    ∧ (SillyForce.AddForceContribution DIM self pop).2.isVertexBased = pop.isVertexBased := by
  obtain ⟨hk, -, hop⟩ := SillyForce.frame_after DIM self pop
  refine ⟨?_, SillyForce.locations_after DIM self pop, ?_,
    SillyForce.centroid_after DIM self pop, hop, hk⟩
  · have := congrArg List.length (SillyForce.locations_after DIM self pop)
    simpa [AbstractCellPopulation.GetNumNodes, Mesh.GetNumNodes] using this
  · intro i n hn
    cases hv : pop.isVertexBased with
    | false =>
      refine ⟨n, ?_, rfl, rfl⟩
      simp [SillyForce.AddForceContribution, hv, hn]
    | true =>
      exact ⟨_, SillyForce.GetNode_after DIM self pop hv i n hn, rfl, rfl⟩

/-- C13, instance: after a call with strength `0.15` on the square population the node at
`(1,0)` is still at `(1,0)` and the centroid is still `(0,0)`. -/
theorem C13_positions_untouched_witness :
    CentroidOfPositions squarePopulation
    ∧ (SillyForce.AddForceContribution 2 ⟨0.15⟩ squarePopulation).2.GetCentroidOfCellPopulation
        = squarePopulation.GetCentroidOfCellPopulation
    ∧ ∃ n', (SillyForce.AddForceContribution 2 ⟨0.15⟩ squarePopulation).2.GetNode 0 = some n'
        ∧ n'.mLocation = ![1, 0] := by
  have hc : CentroidOfPositions squarePopulation := meanCentroid_of_positions _ rfl
  obtain ⟨-, -, h3, h4, -, -⟩ := C13_positions_untouched 2 ⟨0.15⟩ squarePopulation
  obtain ⟨n', hn1, hn2, -⟩ := h3 0 (planarNode 0 1 0) rfl
  exact ⟨hc, h4 hc, n', hn1, hn2⟩

/-- C14: a freshly constructed `SillyForce` reports the strength multiplier `1.0`; after
`SetStrengthMultiplier(v)`, for any `v`, `GetStrengthMultiplier` reports `v`, also when another
value was set before; and the next `AddForceContribution` uses `v`: in dimension 2 on a
vertex-based population it adds `v * (-d.y, d.x)` to every node. -/
theorem C14_strength_multiplier_get_set (self : SillyForce) (u v : ℚ)
    (pop : AbstractCellPopulation 2) :
    ({} : SillyForce).GetStrengthMultiplier = 1.0
    ∧ (self.SetStrengthMultiplier v).GetStrengthMultiplier = v
    ∧ ((self.SetStrengthMultiplier u).SetStrengthMultiplier v).GetStrengthMultiplier = v
    ∧ (pop.isVertexBased = true → ∀ (i : Nat) (n : Node 2), pop.GetNode i = some n →
        ∃ n', (SillyForce.AddForceContribution 2 (self.SetStrengthMultiplier v) pop).2.GetNode i
            = some n'
          ∧ addedForce n n' 0
              = v * (-(pop.mrMesh.GetVectorFromAtoB pop.GetCentroidOfCellPopulation
                  n.mLocation 1))
          ∧ addedForce n n' 1
              = v * (pop.mrMesh.GetVectorFromAtoB pop.GetCentroidOfCellPopulation
                  n.mLocation 0)) := by
  refine ⟨by norm_num [SillyForce.GetStrengthMultiplier], rfl, rfl, ?_⟩
  intro hv i n hn
  exact ⟨_, SillyForce.GetNode_after 2 _ pop hv i n hn,
    SillyForce.addedForce_planar (self.SetStrengthMultiplier v) _ _ n⟩

/-- C14, instance of `Test05CustomForce`: after `SetStrengthMultiplier(0.15)` on a fresh force
the getter reports `0.15`, and the node at `(2,0)` with centroid `(0,0)` receives
`0.15 * (0, 2) = (0, 0.3)`. -/
theorem C14_strength_multiplier_get_set_witness :
    (({} : SillyForce).SetStrengthMultiplier 0.15).GetStrengthMultiplier = 0.15
    ∧ singleNodePopulation.isVertexBased = true
    ∧ ∃ n', (SillyForce.AddForceContribution 2 (({} : SillyForce).SetStrengthMultiplier 0.15)
          singleNodePopulation).2.GetNode 0 = some n'
        ∧ addedForce (planarNode 0 2 0) n' 0 = 0
        ∧ addedForce (planarNode 0 2 0) n' 1 = 0.3 := by
  obtain ⟨-, h2, -, h4⟩ := C14_strength_multiplier_get_set {} 0 0.15 singleNodePopulation
  obtain ⟨n', hn1, hn2, hn3⟩ := h4 rfl 0 (planarNode 0 2 0) rfl
  have hd : singleNodePopulation.mrMesh.GetVectorFromAtoB
      singleNodePopulation.GetCentroidOfCellPopulation (planarNode 0 2 0).mLocation
        = ![2, 0] := by
    funext j
    fin_cases j <;>
      simp [singleNodePopulation, planarNode, plainVectorFromAtoB,
        AbstractCellPopulation.GetCentroidOfCellPopulation]
  rw [hd] at hn2 hn3
  refine ⟨h2, rfl, n', hn1, ?_, ?_⟩
  · rw [hn2]; simp
  · rw [hn3]; simp; norm_num

/-- C15: archiving a `SillyForce` and restoring it preserves the strength multiplier exactly.
Saving the object appends its multiplier to the archive and leaves the object as it is;
loading any other `SillyForce` object from what was saved yields an object whose
`GetStrengthMultiplier` is that of the original and whose `AddForceContribution` does to every
population what the original's does; what follows in the archive is left for the next
reader. -/
theorem C15_serialize_round_trip (DIM : Nat) (self other : SillyForce) (earlier later : List ℚ)
    (pop : AbstractCellPopulation DIM) :
    ∃ saved restored : SillyForce × Archive,
      self.serialize ⟨true, earlier⟩ = some saved
      ∧ saved.1 = self
      ∧ saved.2.data = earlier ++ [self.GetStrengthMultiplier]
      ∧ other.serialize ⟨false, saved.2.data.drop earlier.length ++ later⟩ = some restored
      ∧ restored.2.data = later
      ∧ restored.1.GetStrengthMultiplier = self.GetStrengthMultiplier
      ∧ SillyForce.AddForceContribution DIM restored.1 pop
          = SillyForce.AddForceContribution DIM self pop := by
  refine ⟨(self, ⟨true, earlier ++ [self.mStrengthMultiplier]⟩), (self, ⟨false, later⟩),
    rfl, rfl, rfl, ?_, rfl, rfl, rfl⟩
  simp [SillyForce.serialize, Archive.amp]

/-- C15, instance: a force with multiplier `0.15`, saved to an empty archive and restored into
a freshly constructed force, reports `0.15` again. -/
theorem C15_serialize_round_trip_witness :
    ∃ saved restored : SillyForce × Archive,
      (⟨0.15⟩ : SillyForce).serialize ⟨true, []⟩ = some saved
      ∧ saved.2.data = [0.15]
      ∧ ({} : SillyForce).serialize ⟨false, saved.2.data⟩ = some restored
      ∧ restored.1.GetStrengthMultiplier = 0.15 := by
  obtain ⟨saved, restored, h1, -, h3, h4, -, h6, -⟩ :=
    C15_serialize_round_trip 2 ⟨0.15⟩ {} [] [] singleNodePopulation
  refine ⟨saved, restored, h1, h3, ?_, h6⟩
  simpa using h4

/-- C18: for every strength multiplier and every prior content of the parameter stream,
`OutputForceParameters` writes the labelled entry
`<StrengthMultiplier>value</StrengthMultiplier>` once, after the prior content, and then hands
the stream to the parent class's `OutputForceParameters`, unconditionally; when the parent
only appends, as the report sink demands, the stream ends up as prior content, entry, parent's
text, in that order. -/
theorem C18_output_force_parameters (formatDouble : ℚ → String)
    (baseOutputForceParameters : String → String) (self : SillyForce) (prior : String) :
    self.OutputForceParameters formatDouble baseOutputForceParameters prior
        = baseOutputForceParameters (prior ++ ("\t\t\t<StrengthMultiplier>"
            ++ formatDouble self.GetStrengthMultiplier ++ "</StrengthMultiplier>\n"))
    ∧ ∀ baseText : String, (∀ stream, baseOutputForceParameters stream = stream ++ baseText) →
        self.OutputForceParameters formatDouble baseOutputForceParameters prior
          = prior ++ ("\t\t\t<StrengthMultiplier>" ++ formatDouble self.GetStrengthMultiplier
              ++ "</StrengthMultiplier>\n") ++ baseText := by
  have h : self.OutputForceParameters formatDouble baseOutputForceParameters prior
      = baseOutputForceParameters (prior ++ ("\t\t\t<StrengthMultiplier>"
          ++ formatDouble self.GetStrengthMultiplier ++ "</StrengthMultiplier>\n")) := by
    simp only [SillyForce.OutputForceParameters, SillyForce.GetStrengthMultiplier,
      String.append_assoc]
  refine ⟨h, ?_⟩
  intro baseText hbase
  rw [h, hbase]

/-- C18, instance: with multiplier `0.15` rendered as `0.15`, a parent that appends
`parent text`, and `prior text` already in the stream, the stream ends up holding the prior
text, the entry and the parent's text, in that order. -/
theorem C18_output_force_parameters_witness :
    (∀ stream : String, (fun s : String => s ++ "parent text") stream = stream ++ "parent text")
    ∧ (⟨0.15⟩ : SillyForce).OutputForceParameters (fun _ => "0.15")
        (fun s => s ++ "parent text") "prior text"
      = "prior text\t\t\t<StrengthMultiplier>0.15</StrengthMultiplier>\nparent text" := by
  refine ⟨fun _ => rfl, ?_⟩
  rw [(C18_output_force_parameters (fun _ => "0.15") (fun s => s ++ "parent text") ⟨0.15⟩
    "prior text").2 "parent text" (fun _ => rfl)]
  decide

/-! ## Further claims about SillySimulationModifier -/

/-- The timer after an invocation does not depend on the dimension or on the population. -/
theorem SillySimulationModifier.timer_dimension_free (DIM DIM' : Nat)
    (self : SillySimulationModifier) (time_now : ℚ) (pop : AbstractCellPopulation DIM)
    (pop' : AbstractCellPopulation DIM') :
    (SillySimulationModifier.UpdateAtEndOfTimeStep DIM self time_now pop).1
      = (SillySimulationModifier.UpdateAtEndOfTimeStep DIM' self time_now pop').1 := by
  unfold SillySimulationModifier.UpdateAtEndOfTimeStep
  split <;> rfl

/-- The firing times of a run depend on the clock readings only. -/
theorem SillySimulationModifier.firingTimes_dimension_free (DIM DIM' : Nat)
    (self : SillySimulationModifier) (calls : List (ℚ × AbstractCellPopulation DIM))
    (calls' : List (ℚ × AbstractCellPopulation DIM'))
    (h : calls.map (fun c => c.1) = calls'.map (fun c => c.1)) :
    SillySimulationModifier.firingTimes DIM self calls
      = SillySimulationModifier.firingTimes DIM' self calls' := by
  induction calls generalizing self calls' with
  | nil =>
    cases calls' with
    | nil => rfl
    | cons c' l' => simp at h
  | cons c l ih =>
    cases calls' with
    | nil => simp at h
    | cons c' l' =>
      obtain ⟨t, p⟩ := c
      obtain ⟨t', p'⟩ := c'
      simp only [List.map_cons, List.cons.injEq] at h
      obtain ⟨ht, hl⟩ := h
      subst ht
      simp only [SillySimulationModifier.firingTimes]
      rw [SillySimulationModifier.timer_dimension_free DIM DIM' self t p p',
        ih _ l' hl]

/-- C19: in dimension 1 or 3 `UpdateAtEndOfTimeStep` still runs the timer. Whenever
`now - lastFired >= 10.0` it sets `lastFired` to `now`, so the modifier after the call differs
from the one before it although the population is unchanged; the modifier after a call is the
same in every dimension and for every population, and so are the firing times of every run
with the same clock readings. -/
theorem C19_nonplanar_timer_still_runs (DIM : Nat) (hD : DIM = 1 ∨ DIM = 3)
    (self : SillySimulationModifier) (time_now : ℚ) (pop : AbstractCellPopulation DIM)
    (h : time_now - self.mTimeLastSquashed ≥ 10.0) :
    (SillySimulationModifier.UpdateAtEndOfTimeStep DIM self time_now pop).1.mTimeLastSquashed
        = time_now
    ∧ (SillySimulationModifier.UpdateAtEndOfTimeStep DIM self time_now pop).1 ≠ self
    ∧ (SillySimulationModifier.UpdateAtEndOfTimeStep DIM self time_now pop).2 = pop
    ∧ (∀ (DIM' : Nat) (pop' : AbstractCellPopulation DIM'),
        (SillySimulationModifier.UpdateAtEndOfTimeStep DIM' self time_now pop').1
          = (SillySimulationModifier.UpdateAtEndOfTimeStep DIM self time_now pop).1)
    ∧ ∀ (DIM' : Nat) (calls : List (ℚ × AbstractCellPopulation DIM))
        (calls' : List (ℚ × AbstractCellPopulation DIM')),
        calls.map (fun c => c.1) = calls'.map (fun c => c.1) →
        SillySimulationModifier.firingTimes DIM self calls
          = SillySimulationModifier.firingTimes DIM' self calls' := by
  have hD2 : DIM ≠ 2 := by omega
  have ht : (SillySimulationModifier.UpdateAtEndOfTimeStep DIM self time_now
      pop).1.mTimeLastSquashed = time_now := by
    rw [SillySimulationModifier.lastSquashed_after, if_pos h]
  refine ⟨ht, ?_, SillySimulationModifier.UpdateAtEndOfTimeStep_nonplanar DIM hD2 self time_now
    pop, fun DIM' pop' => SillySimulationModifier.timer_dimension_free DIM' DIM self time_now
      pop' pop, fun DIM' calls calls' hc =>
      SillySimulationModifier.firingTimes_dimension_free DIM DIM' self calls calls' hc⟩
  intro heq
  rw [heq] at ht
  rw [ht] at h
  norm_num at h

/-- C19, instance: in dimension 3, invoked at `t = 10` with the timer at `0`, the modifier ends
with the timer at `10` while the population is as it was. -/
theorem C19_nonplanar_timer_still_runs_witness :
    ((3 : Nat) = 1 ∨ (3 : Nat) = 3)
    ∧ (10 : ℚ) - (⟨0⟩ : SillySimulationModifier).mTimeLastSquashed ≥ 10.0
    ∧ (SillySimulationModifier.UpdateAtEndOfTimeStep 3 ⟨0⟩ 10
        (spatialPopulation true)).1.mTimeLastSquashed = 10
    ∧ (SillySimulationModifier.UpdateAtEndOfTimeStep 3 ⟨0⟩ 10 (spatialPopulation true)).2
        = spatialPopulation true := by
  have h : (10 : ℚ) - (⟨0⟩ : SillySimulationModifier).mTimeLastSquashed ≥ 10.0 := by norm_num
  obtain ⟨h1, -, h3, -⟩ :=
    C19_nonplanar_timer_still_runs 3 (Or.inr rfl) ⟨0⟩ 10 (spatialPopulation true) h
  exact ⟨Or.inr rfl, h, h1, h3⟩

/-- One node of the pass: the specification and the code agree when the centroid read at that
moment has the first coordinate of the centroid the code read before the loop. -/
theorem specSquashStep_eq (centroid : c_vector 2) (q : AbstractCellPopulation 2) (k : Nat)
    (hc : q.GetCentroidOfCellPopulation 0 = centroid 0) :
    specSquashStep q k = SillySimulationModifier.squashLoopBody 2 centroid q k := by
  unfold specSquashStep SillySimulationModifier.squashLoopBody
  cases q.GetNode k with
  | none => rfl
  | some node =>
    simp only [hc, vget, if_true, Nat.zero_lt_succ, dite_true]
    rfl

/-- The pass of the specification and the pass of the code agree on the first `k` nodes as long
as the centroid read before each of them has the first coordinate read before the loop. -/
theorem specSquash_prefix_eq (pop : AbstractCellPopulation 2) (k : Nat)
    (hc : ∀ j, j < k →
      ((List.range j).foldl specSquashStep pop).GetCentroidOfCellPopulation 0
        = pop.GetCentroidOfCellPopulation 0) :
    (List.range k).foldl specSquashStep pop
      = (List.range k).foldl
          (SillySimulationModifier.squashLoopBody 2 pop.GetCentroidOfCellPopulation) pop := by
  induction k with
  | zero => rfl
  | succ k ih =>
    have ihk := ih (fun j hj => hc j (Nat.lt_succ_of_lt hj))
    have hck := hc k (Nat.lt_succ_self k)
    rw [List.range_succ, List.foldl_append, List.foldl_append]
    simp only [List.foldl_cons, List.foldl_nil]
    rw [← ihk]
    exact specSquashStep_eq _ _ k hck

/-- C16 (as amended): in a firing invocation of `UpdateAtEndOfTimeStep` in dimension 2 the
centroid is computed once, before the first node is processed, and every node's first
coordinate is set to `0.5 * (node.x + centroid.x)` with that one centroid. The result equals
that of the procedure of the specification, which computes the centroid anew for every node,
whenever the first coordinate of the centroid read before each node equals the one read before
the loop. -/
theorem C16_firing_refines_spec_procedure (self : SillySimulationModifier) (time_now : ℚ)
    (pop : AbstractCellPopulation 2) (h : time_now - self.mTimeLastSquashed ≥ 10.0) :
    SillySimulationModifier.UpdateAtEndOfTimeStep 2 self time_now pop
        = ({ self with mTimeLastSquashed := time_now },
            withNodes pop (pop.mrMesh.mNodes.map (fun n =>
              { n with
                mLocation := vset n.mLocation 0
                  (0.5 * (n.mLocation 0 + pop.GetCentroidOfCellPopulation 0)) })))
    ∧ ((∀ j, j < pop.GetNumNodes →
          ((List.range j).foldl specSquashStep pop).GetCentroidOfCellPopulation 0
            = pop.GetCentroidOfCellPopulation 0) →
        SillySimulationModifier.UpdateAtEndOfTimeStep 2 self time_now pop
          = specFiringProcedure self time_now pop) := by
  constructor
  · rw [SillySimulationModifier.UpdateAtEndOfTimeStep_firing 2 self time_now pop h]
    rfl
  · intro hc
    unfold SillySimulationModifier.UpdateAtEndOfTimeStep specFiringProcedure
    rw [if_pos h]
    simp only []
    rw [specSquash_prefix_eq pop pop.GetNumNodes hc]
    rfl

/-- The pass of the specification keeps the centroid aggregate of the population. -/
theorem specSquash_centroidOf (pop : AbstractCellPopulation 2) (l : List Nat) :
    (l.foldl specSquashStep pop).centroidOf = pop.centroidOf := by
  induction l generalizing pop with
  | nil => rfl
  | cons i l ih =>
    rw [List.foldl_cons, ih]
    unfold specSquashStep
    cases pop.GetNode i with
    | none => rfl
    | some node => rfl

/-- C16, instance: on the four nodes of the square with a centroid aggregate fixed at `(0,0)`,
fired at `t = 10`, the centroid read before each of the four nodes has the first coordinate
`0` read before the loop, and code and specification agree: both move the node at `(1,0)` to
`x = 0.5` and the node at `(-1,0)` to `x = -0.5`. -/
theorem C16_firing_refines_spec_procedure_witness :
    (10 : ℚ) - (⟨0⟩ : SillySimulationModifier).mTimeLastSquashed ≥ 10.0
    ∧ squareFixedCentroidPopulation.GetNumNodes = 4
    ∧ (∀ j, j < squareFixedCentroidPopulation.GetNumNodes →
        ((List.range j).foldl specSquashStep
            squareFixedCentroidPopulation).GetCentroidOfCellPopulation 0
          = squareFixedCentroidPopulation.GetCentroidOfCellPopulation 0)
    ∧ SillySimulationModifier.UpdateAtEndOfTimeStep 2 ⟨0⟩ 10 squareFixedCentroidPopulation
        = specFiringProcedure ⟨0⟩ 10 squareFixedCentroidPopulation
    ∧ (∃ n, (specFiringProcedure ⟨0⟩ 10 squareFixedCentroidPopulation).2.GetNode 0 = some n
        ∧ n.mLocation 0 = 1 / 2)
    ∧ ∃ n, (specFiringProcedure ⟨0⟩ 10 squareFixedCentroidPopulation).2.GetNode 2 = some n
        ∧ n.mLocation 0 = -1 / 2 := by
  have h : (10 : ℚ) - (⟨0⟩ : SillySimulationModifier).mTimeLastSquashed ≥ 10.0 := by norm_num
  have hcentroid : ∀ j, j < squareFixedCentroidPopulation.GetNumNodes →
      ((List.range j).foldl specSquashStep
          squareFixedCentroidPopulation).GetCentroidOfCellPopulation 0
        = squareFixedCentroidPopulation.GetCentroidOfCellPopulation 0 := by
    intro j _
    unfold AbstractCellPopulation.GetCentroidOfCellPopulation
    rw [specSquash_centroidOf]
    rfl
  have heq := (C16_firing_refines_spec_procedure ⟨0⟩ 10 squareFixedCentroidPopulation h).2
    hcentroid
  have hc0 : squareFixedCentroidPopulation.GetCentroidOfCellPopulation 0 = 0 := rfl
  refine ⟨h, rfl, hcentroid, heq, ?_, ?_⟩
  · rw [← heq]
    refine ⟨_, SillySimulationModifier.GetNode_after_firing 2 ⟨0⟩ 10
      squareFixedCentroidPopulation h 0 (planarNode 0 1 0) rfl, ?_⟩
    rw [(SillySimulationModifier.squash_planar _ _).1, hc0]
    norm_num [planarNode]
  · rw [← heq]
    refine ⟨_, SillySimulationModifier.GetNode_after_firing 2 ⟨0⟩ 10
      squareFixedCentroidPopulation h 2 (planarNode 2 (-1) 0) rfl, ?_⟩
    rw [(SillySimulationModifier.squash_planar _ _).1, hc0]
    norm_num [planarNode]

/-- C16, counterexample: on the two nodes at `(1,0)` and `(3,0)` with the mean as centroid,
fired at `t = 10`, the code reads the centroid `(2,0)` once and moves the second node to
`x = 2.5`; the procedure of the specification recomputes the centroid after the first node has
moved to `x = 1.5`, finds `x = 2.25`, and moves the second node to `x = 2.625`. -/
theorem C16_centroid_recomputed_counterexample :
    (10 : ℚ) - (⟨0⟩ : SillySimulationModifier).mTimeLastSquashed ≥ 10.0
    ∧ (∃ n, (SillySimulationModifier.UpdateAtEndOfTimeStep 2 ⟨0⟩ 10
          twoNodePopulation).2.GetNode 1 = some n ∧ n.mLocation 0 = 5 / 2)
    ∧ (∃ n, (specFiringProcedure ⟨0⟩ 10 twoNodePopulation).2.GetNode 1 = some n
        ∧ n.mLocation 0 = 21 / 8)
    ∧ SillySimulationModifier.UpdateAtEndOfTimeStep 2 ⟨0⟩ 10 twoNodePopulation
        ≠ specFiringProcedure ⟨0⟩ 10 twoNodePopulation := by
  have h : (10 : ℚ) - (⟨0⟩ : SillySimulationModifier).mTimeLastSquashed ≥ 10.0 := by norm_num
  have hcode : ∃ n, (SillySimulationModifier.UpdateAtEndOfTimeStep 2 ⟨0⟩ 10
      twoNodePopulation).2.GetNode 1 = some n ∧ n.mLocation 0 = 5 / 2 := by
    refine ⟨_, SillySimulationModifier.GetNode_after_firing 2 ⟨0⟩ 10 twoNodePopulation h 1
      (planarNode 1 3 0) rfl, ?_⟩
    rw [(SillySimulationModifier.squash_planar _ _).1]
    simp [twoNodePopulation, planarNode, meanCentroid,
      AbstractCellPopulation.GetCentroidOfCellPopulation]
    norm_num
  have hspec : ∃ n, (specFiringProcedure ⟨0⟩ 10 twoNodePopulation).2.GetNode 1 = some n
      ∧ n.mLocation 0 = 21 / 8 := by
    simp [specFiringProcedure, specSquashStep, twoNodePopulation, planarNode, meanCentroid,
      List.range_succ, AbstractCellPopulation.GetNode, AbstractCellPopulation.setNode,
      AbstractCellPopulation.GetNumNodes, Mesh.GetNumNodes,
      AbstractCellPopulation.GetCentroidOfCellPopulation, vset]
    norm_num
  refine ⟨h, hcode, hspec, ?_⟩
  intro heq
  obtain ⟨n, hn, hx⟩ := hcode
  obtain ⟨n', hn', hx'⟩ := hspec
  rw [heq, hn'] at hn
  have : n' = n := Option.some.inj hn
  rw [this, hx] at hx'
  norm_num at hx'

/-- C17 (as amended): only `AddForceContribution` goes through the mesh's displacement operator:
the force it adds to a node is `s * (-d.y, d.x)` with `d = GetVectorFromAtoB(centroid,
position)`. A firing `UpdateAtEndOfTimeStep` does not use the operator: it writes
`0.5 * (node.x + centroid.x)` by plain coordinate arithmetic, the same nodes result under every
displacement operator, and the written coordinate equals
`node.x + 0.5 * displacement(node position, centroid).x` when that displacement is the plain
difference `centroid.x - node.x`. -/
theorem C17_displacement_operator_use (force : SillyForce) (self : SillySimulationModifier)
    (time_now : ℚ) (pop : AbstractCellPopulation 2) (i : Nat) (n : Node 2)
    (hn : pop.GetNode i = some n) :
    (pop.isVertexBased = true →
      ∃ n', (SillyForce.AddForceContribution 2 force pop).2.GetNode i = some n'
        ∧ addedForce n n' 0 = force.mStrengthMultiplier *
            (-(pop.mrMesh.GetVectorFromAtoB pop.GetCentroidOfCellPopulation n.mLocation 1))
        ∧ addedForce n n' 1 = force.mStrengthMultiplier *
            (pop.mrMesh.GetVectorFromAtoB pop.GetCentroidOfCellPopulation n.mLocation 0))
    ∧ (time_now - self.mTimeLastSquashed ≥ 10.0 →
      (∃ n', (SillySimulationModifier.UpdateAtEndOfTimeStep 2 self time_now pop).2.GetNode i
            = some n'
          ∧ n'.mLocation 0 = 0.5 * (n.mLocation 0 + pop.GetCentroidOfCellPopulation 0)
          ∧ (pop.mrMesh.GetVectorFromAtoB n.mLocation pop.GetCentroidOfCellPopulation 0
                = pop.GetCentroidOfCellPopulation 0 - n.mLocation 0 →
              n'.mLocation 0 = n.mLocation 0 + 0.5 *
                pop.mrMesh.GetVectorFromAtoB n.mLocation pop.GetCentroidOfCellPopulation 0))
      ∧ ∀ op : c_vector 2 → c_vector 2 → c_vector 2,
          (SillySimulationModifier.UpdateAtEndOfTimeStep 2 self time_now
              { pop with mrMesh := { pop.mrMesh with GetVectorFromAtoB := op } }).2.mrMesh.mNodes
            = (SillySimulationModifier.UpdateAtEndOfTimeStep 2 self time_now
                pop).2.mrMesh.mNodes) := by
  constructor
  · intro hv
    exact ⟨_, SillyForce.GetNode_after 2 force pop hv i n hn,
      SillyForce.addedForce_planar force _ _ n⟩
  · intro h
    constructor
    · refine ⟨_, SillySimulationModifier.GetNode_after_firing 2 self time_now pop h i n hn,
        (SillySimulationModifier.squash_planar _ n).1, ?_⟩
      intro hplain
      rw [(SillySimulationModifier.squash_planar _ n).1, hplain]
      norm_num
      ring
    · intro op
      rw [SillySimulationModifier.UpdateAtEndOfTimeStep_firing 2 self time_now pop h,
        SillySimulationModifier.UpdateAtEndOfTimeStep_firing 2 self time_now _ h]
      rfl

/-- C17, instance: on the square population with its plain displacement operator, fired at
`t = 10`, the node at `(1,0)` is moved to `x = 0.5`, which is
`1 + 0.5 * displacement((1,0), (0,0)).x`. -/
theorem C17_displacement_operator_use_witness :
    squarePopulation.GetNode 0 = some (planarNode 0 1 0)
    ∧ (10 : ℚ) - (⟨0⟩ : SillySimulationModifier).mTimeLastSquashed ≥ 10.0
    ∧ ∃ n', (SillySimulationModifier.UpdateAtEndOfTimeStep 2 ⟨0⟩ 10
          squarePopulation).2.GetNode 0 = some n'
        ∧ n'.mLocation 0 = (planarNode 0 1 0).mLocation 0 + 0.5 *
            squarePopulation.mrMesh.GetVectorFromAtoB (planarNode 0 1 0).mLocation
              squarePopulation.GetCentroidOfCellPopulation 0 := by
  have h : (10 : ℚ) - (⟨0⟩ : SillySimulationModifier).mTimeLastSquashed ≥ 10.0 := by norm_num
  obtain ⟨⟨n', hn1, -, hn3⟩, -⟩ :=
    (C17_displacement_operator_use {} ⟨0⟩ 10 squarePopulation 0 (planarNode 0 1 0) rfl).2 h
  exact ⟨rfl, h, n', hn1, hn3 rfl⟩

/-- C17, counterexample: on a mesh of period `10` in the first coordinate with nodes at
`x = 1, 9, 9, 9` the centroid has `x = 7`; a firing `UpdateAtEndOfTimeStep` moves the node at
`x = 1` to `0.5 * (1 + 7) = 4`, whereas the mesh displacement from the node to the centroid is
`-4` (the short way round) and `node.x + 0.5 * displacement.x = -1`. -/
theorem C17_periodic_mesh_counterexample :
    cylinderPopulation.GetNode 0 = some (planarNode 0 1 0)
    ∧ (10 : ℚ) - (⟨0⟩ : SillySimulationModifier).mTimeLastSquashed ≥ 10.0
    ∧ cylinderPopulation.mrMesh.GetVectorFromAtoB (planarNode 0 1 0).mLocation
        cylinderPopulation.GetCentroidOfCellPopulation 0 = -4
    ∧ ∃ n', (SillySimulationModifier.UpdateAtEndOfTimeStep 2 ⟨0⟩ 10
          cylinderPopulation).2.GetNode 0 = some n'
        ∧ n'.mLocation 0 = 4
        ∧ n'.mLocation 0 ≠ (planarNode 0 1 0).mLocation 0 + 0.5 *
            cylinderPopulation.mrMesh.GetVectorFromAtoB (planarNode 0 1 0).mLocation
              cylinderPopulation.GetCentroidOfCellPopulation 0 := by
  have h : (10 : ℚ) - (⟨0⟩ : SillySimulationModifier).mTimeLastSquashed ≥ 10.0 := by norm_num
  have hc : cylinderPopulation.GetCentroidOfCellPopulation 0 = 7 := by
    simp [cylinderPopulation, planarNode, meanCentroid,
      AbstractCellPopulation.GetCentroidOfCellPopulation]
    norm_num
  have hd : cylinderPopulation.mrMesh.GetVectorFromAtoB (planarNode 0 1 0).mLocation
      cylinderPopulation.GetCentroidOfCellPopulation 0 = -4 := by
    show cylindricalVectorFromAtoB 10 (planarNode 0 1 0).mLocation
      cylinderPopulation.GetCentroidOfCellPopulation 0 = -4
    simp only [cylindricalVectorFromAtoB, hc]
    norm_num [planarNode]
  have hx : (SillySimulationModifier.nodeUpdate 2 cylinderPopulation.GetCentroidOfCellPopulation
      (planarNode 0 1 0)).mLocation 0 = 4 := by
    rw [(SillySimulationModifier.squash_planar _ _).1, hc]
    norm_num [planarNode]
  refine ⟨rfl, h, hd, _, SillySimulationModifier.GetNode_after_firing 2 ⟨0⟩ 10
    cylinderPopulation h 0 (planarNode 0 1 0) rfl, hx, ?_⟩
  rw [hx, hd]
  norm_num [planarNode]

/-- The sum of the first coordinates after the squash towards `c`. -/
theorem sum_squashed_first_coordinates (c : c_vector 2) (l : List (Node 2)) :
    (l.map (fun n => (SillySimulationModifier.nodeUpdate 2 c n).mLocation 0)).sum
      = 0.5 * (l.map (fun n => n.mLocation 0)).sum + 0.5 * (l.length * c 0) := by
  induction l with
  | nil => simp
  | cons n l ih =>
    simp only [List.map_cons, List.sum_cons, List.length_cons, ih,
      (SillySimulationModifier.squash_planar c n).1]
    push_cast
    ring

/-- C20: in dimension 2, if the population centroid is the arithmetic mean of the positions of
its nodes (of which there is at least one), a firing `UpdateAtEndOfTimeStep` leaves the first
coordinate of the centroid unchanged and halves the signed first-coordinate offset of every
node from the centroid: `new x - c.x = 0.5 * (old x - c.x)`. -/
theorem C20_firing_halves_offsets (self : SillySimulationModifier) (time_now : ℚ)
    (pop : AbstractCellPopulation 2) (h : time_now - self.mTimeLastSquashed ≥ 10.0)
    (hmean : pop.centroidOf = meanCentroid) (hne : pop.mrMesh.mNodes ≠ []) :
    (SillySimulationModifier.UpdateAtEndOfTimeStep 2 self time_now
        pop).2.GetCentroidOfCellPopulation 0 = pop.GetCentroidOfCellPopulation 0
    ∧ ∀ (i : Nat) (n : Node 2), pop.GetNode i = some n →
        ∃ n', (SillySimulationModifier.UpdateAtEndOfTimeStep 2 self time_now pop).2.GetNode i
            = some n'
          ∧ n'.mLocation 0 - pop.GetCentroidOfCellPopulation 0
              = 0.5 * (n.mLocation 0 - pop.GetCentroidOfCellPopulation 0) := by
  constructor
  · rw [SillySimulationModifier.UpdateAtEndOfTimeStep_firing 2 self time_now pop h]
    have hlen : (pop.mrMesh.mNodes.length : ℚ) ≠ 0 := by
      have : pop.mrMesh.mNodes.length ≠ 0 := fun h0 => hne (List.length_eq_zero.mp h0)
      exact_mod_cast this
    have hc : pop.GetCentroidOfCellPopulation 0
        = (pop.mrMesh.mNodes.map (fun n => n.mLocation 0)).sum / pop.mrMesh.mNodes.length := by
      simp only [AbstractCellPopulation.GetCentroidOfCellPopulation, hmean, meanCentroid]
    have hafter : (withNodes pop (pop.mrMesh.mNodes.map
        (SillySimulationModifier.nodeUpdate 2
          pop.GetCentroidOfCellPopulation))).GetCentroidOfCellPopulation 0
        = (pop.mrMesh.mNodes.map (fun n => (SillySimulationModifier.nodeUpdate 2
            pop.GetCentroidOfCellPopulation n).mLocation 0)).sum
          / pop.mrMesh.mNodes.length := by
      simp only [AbstractCellPopulation.GetCentroidOfCellPopulation, withNodes, hmean,
        meanCentroid, List.map_map, List.length_map]
      rfl
    rw [hafter, sum_squashed_first_coordinates, hc]
    field_simp
    ring
  · intro i n hn
    refine ⟨_, SillySimulationModifier.GetNode_after_firing 2 self time_now pop h i n hn, ?_⟩
    rw [(SillySimulationModifier.squash_planar _ n).1]
    norm_num
    ring

/-- C20, instance: the square population, whose centroid is the mean `(0,0)` of its four nodes,
fired at `t = 10`: the centroid keeps `x = 0` and the node at `(1,0)` ends at offset `0.5`. -/
theorem C20_firing_halves_offsets_witness :
    (10 : ℚ) - (⟨0⟩ : SillySimulationModifier).mTimeLastSquashed ≥ 10.0
    ∧ squarePopulation.centroidOf = meanCentroid
    ∧ squarePopulation.mrMesh.mNodes ≠ []
    ∧ squarePopulation.GetCentroidOfCellPopulation 0 = 0
    ∧ (SillySimulationModifier.UpdateAtEndOfTimeStep 2 ⟨0⟩ 10
        squarePopulation).2.GetCentroidOfCellPopulation 0 = 0
    ∧ ∃ n', (SillySimulationModifier.UpdateAtEndOfTimeStep 2 ⟨0⟩ 10
          squarePopulation).2.GetNode 0 = some n'
        ∧ n'.mLocation 0 - 0 = 0.5 * (1 - 0) := by
  have h : (10 : ℚ) - (⟨0⟩ : SillySimulationModifier).mTimeLastSquashed ≥ 10.0 := by norm_num
  have hne : squarePopulation.mrMesh.mNodes ≠ [] := by simp [squarePopulation]
  have hc : squarePopulation.GetCentroidOfCellPopulation 0 = 0 := by
    simp [squarePopulation, planarNode, meanCentroid,
      AbstractCellPopulation.GetCentroidOfCellPopulation]
  obtain ⟨h1, h2⟩ := C20_firing_halves_offsets ⟨0⟩ 10 squarePopulation h rfl hne
  obtain ⟨n', hn1, hn2⟩ := h2 0 (planarNode 0 1 0) rfl
  rw [hc] at h1 hn2
  refine ⟨h, rfl, hne, hc, h1, n', hn1, ?_⟩
  rw [hn2]
  simp [planarNode]

/-! ## The net force of SillyForce -/

/-- Pairing every node with its image under `f` and taking the added forces. -/
theorem zipWith_addedForce_map {DIM : Nat} (f : Node DIM → Node DIM) (l : List (Node DIM)) :
    List.zipWith addedForce l (l.map f) = l.map (fun n => addedForce n (f n)) := by
  induction l with
  | nil => rfl
  | cons n l ih => simp only [List.map_cons, List.zipWith_cons_cons, ih]

/-- The sum of the planar contributions over a list of nodes, for any centroid, on a mesh whose
displacement is plain subtraction. -/
theorem SillyForce.sum_addedForce_planar (self : SillyForce) (c : c_vector 2)
    (l : List (Node 2)) :
    ((l.map (fun n => addedForce n (SillyForce.nodeUpdate 2 self c plainVectorFromAtoB n))).map
        (fun v => v 0)).sum
      = self.mStrengthMultiplier *
          (-((l.map (fun n => n.mLocation 1)).sum - l.length * c 1))
    ∧ ((l.map (fun n => addedForce n (SillyForce.nodeUpdate 2 self c plainVectorFromAtoB n))).map
        (fun v => v 1)).sum
      = self.mStrengthMultiplier *
          ((l.map (fun n => n.mLocation 0)).sum - l.length * c 0) := by
  induction l with
  | nil => simp
  | cons n l ih =>
    obtain ⟨ih0, ih1⟩ := ih
    obtain ⟨h0, h1⟩ := SillyForce.addedForce_planar self c plainVectorFromAtoB n
    simp only [List.map_cons, List.sum_cons, List.length_cons, ih0, ih1, h0, h1,
      plainVectorFromAtoB]
    push_cast
    constructor <;> ring

/-- The sum of the offsets from the mean is zero. -/
theorem sum_sub_length_mul_mean {DIM : Nat} (l : List (Node DIM)) (j : Fin DIM) :
    (l.map (fun n => n.mLocation j)).sum - l.length * meanCentroid l j = 0 := by
  unfold meanCentroid
  cases l with
  | nil => simp
  | cons n l =>
    have hlen : (((n :: l).length : Nat) : ℚ) ≠ 0 := by
      simp only [List.length_cons]
      exact_mod_cast Nat.succ_ne_zero l.length
    field_simp

/-- C21: in dimension 2, if the population centroid is the arithmetic mean of the node
positions and the mesh displacement is plain subtraction, then for every strength `s` and every
population the forces added by one call of `AddForceContribution` sum to the zero vector over
all nodes. -/
theorem C21_no_net_force (self : SillyForce) (pop : AbstractCellPopulation 2)
    (hmean : pop.centroidOf = meanCentroid)
    (hplain : pop.mrMesh.GetVectorFromAtoB = plainVectorFromAtoB) :
    netAddedForce pop (SillyForce.AddForceContribution 2 self pop).2 = zero_vector 2 := by
  cases hv : pop.isVertexBased with
  | false =>
    have hsame : (SillyForce.AddForceContribution 2 self pop).2 = pop := by
      simp [SillyForce.AddForceContribution, hv]
    rw [hsame]
    funext j
    have hz : ∀ l : List (Node 2),
        ((List.zipWith addedForce l l).map (fun v => v j)).sum = 0 := by
      intro l
      induction l with
      | nil => rfl
      | cons n l ih =>
        simp only [List.zipWith_cons_cons, List.map_cons, List.sum_cons, ih, addedForce]
        ring
    exact hz _
  | true =>
    rw [SillyForce.AddForceContribution_vertex 2 self pop hv]
    have hc : pop.GetCentroidOfCellPopulation = meanCentroid pop.mrMesh.mNodes := by
      simp only [AbstractCellPopulation.GetCentroidOfCellPopulation, hmean]
    obtain ⟨s0, s1⟩ := SillyForce.sum_addedForce_planar self
      (meanCentroid pop.mrMesh.mNodes) pop.mrMesh.mNodes
    funext j
    simp only [netAddedForce, withNodes, zipWith_addedForce_map, hplain, hc, zero_vector]
    fin_cases j
    · simp only [Fin.zero_eta]
      rw [s0, sum_sub_length_mul_mean]
      ring
    · simp only [Fin.mk_one]
      rw [s1, sum_sub_length_mul_mean]
      ring

/-- C21, instance: on the square population, whose centroid is the mean `(0,0)` of its nodes
and whose mesh is not periodic, a call with strength `0.15` adds `(0, 0.15)` to the node at
`(1,0)` and no net force to the population. -/
theorem C21_no_net_force_witness :
    squarePopulation.centroidOf = meanCentroid
    ∧ squarePopulation.mrMesh.GetVectorFromAtoB = plainVectorFromAtoB
    ∧ addedForce (planarNode 0 1 0)
        (SillyForce.nodeUpdate 2 ⟨0.15⟩ squarePopulation.GetCentroidOfCellPopulation
          plainVectorFromAtoB (planarNode 0 1 0)) 1 = 0.15
    ∧ netAddedForce squarePopulation
        (SillyForce.AddForceContribution 2 ⟨0.15⟩ squarePopulation).2 = zero_vector 2 := by
  refine ⟨rfl, rfl, ?_, C21_no_net_force ⟨0.15⟩ squarePopulation rfl rfl⟩
  rw [(SillyForce.addedForce_planar ⟨0.15⟩ _ plainVectorFromAtoB (planarNode 0 1 0)).2]
  simp [squarePopulation, planarNode, plainVectorFromAtoB, meanCentroid,
    AbstractCellPopulation.GetCentroidOfCellPopulation]

end Chaste
